import Mathlib

/-!
# Proxy-PDF-Maker: the page layout of `GeneratePdf`

A shallow embedding of `source/lib/source/ppp/pdf/generate.cpp`.

* Lengths (`Length`, a floating point quantity in the source) are read as exact
  rationals, in millimetres.
* `size_t` values are natural numbers; every `+` and `-` the source performs on the
  grid indices and on the image counter is taken modulo `2 ^ 64` (`uadd`, `usub`).
  The page index `p` is below the number of pages, and `p + 1` is not reduced.
* The canvas (`PdfDocument` / `PdfPage`) is an external collaborator.  Every call
  made on it, and every `LogInfo` call, is recorded as a `Cmd`; a function of the
  source becomes a function returning the commands it issues, in order.  A page
  handle is the number of `NextPage` calls made before the one that returned it.
* Code of the project that is outside the translated file (`Project` methods,
  `GetCardRotation`, `DistributeCardsToGrid`, the filesystem) is taken as a
  parameter: the fields of `Project` after `m_Data`, and `Env`.
-/

namespace PPP

/-! ## Machine integers -/

/-- Number of values of a `size_t`. -/
def SIZE_MOD : Nat := 2 ^ 64

/-- Addition of two `size_t` values. -/
def uadd (a b : Nat) : Nat := (a + b) % SIZE_MOD

/-- Subtraction of two `size_t` values (wraps around below zero). -/
def usub (a b : Nat) : Nat := (a % SIZE_MOD + (SIZE_MOD - b % SIZE_MOD)) % SIZE_MOD

/-! ## Data model -/

/-- A pair of lengths (`Size`, `Position`: both are `dla::tvec2<Length>`). -/
structure Size where
  x : ℚ
  y : ℚ
  deriving DecidableEq

/-- A point of the page, in lengths from the lower left corner. -/
abbrev Position := Size

/-- The card layout `m_CardLayout`: `x` columns and `y` rows. -/
structure Layout where
  x : Nat
  y : Nat
  deriving DecidableEq

/-- An 8-bit colour of the project file. -/
structure ColorRGB8 where
  r : Nat
  g : Nat
  b : Nat
  deriving DecidableEq

/-- A colour with components in `[0, 1]`. -/
structure ColorRGB32f where
  r : ℚ
  g : ℚ
  b : ℚ
  deriving DecidableEq

/-- Modelled from the spec: the enumeration `FlipPageOn` is declared outside the
translated file; the source names `LeftEdge`, the spec names the left edge and the
top edge as the two flip axes. -/
inductive FlipPageOn where
  | LeftEdge
  | TopEdge
  deriving DecidableEq

/-- The enumeration `PdfPage::CrossSegment`, with the enumerators the source uses. -/
inductive CrossSegment where
  | FullCross
  | TopLeft
  | TopRight
  | BottomRight
  | BottomLeft
  deriving DecidableEq

/-- The fields of `project.m_Data` that `generate.cpp` reads while rendering. -/
structure ProjectData where
  m_FileName : String
  m_BleedEdge : ℚ
  m_Spacing : Size
  m_CardLayout : Layout
  m_GuidesColorA : ColorRGB8
  m_GuidesColorB : ColorRGB8
  m_GuidesThickness : ℚ
  m_GuidesOffset : ℚ
  m_GuidesLength : ℚ
  m_EnableGuides : Bool
  m_BacksideEnableGuides : Bool
  m_CornerGuides : Bool
  m_CrossGuides : Bool
  m_ExtendedGuides : Bool
  m_BacksideEnabled : Bool
  m_BacksideOffset : ℚ
  m_FlipOn : FlipPageOn

/-- A project: its data, and the values of the `Project` methods the renderer calls
(their bodies are outside the translated file). -/
structure Project where
  m_Data : ProjectData
  CardSizeWithBleed : Size
  ComputePageSize : Size
  ComputeMargins : Size
  ComputeMaxMargins : Size
  GetBacksideImage : String → String

/-- A card placed in a grid cell (`GridImage`). -/
structure GridImage where
  m_Image : String
  m_BacksideShortEdge : Bool
  deriving DecidableEq

/-- The grid of one page: `card_grid y x` is `card_grid[y][x]`. -/
abbrev Grid := Nat → Nat → Option GridImage

/-- What the renderer takes from its surroundings: the output directory
(`GetOutputDir`), `operator/` and `exists` of `std::filesystem`,
`GetCardRotation`, and for each page of `DistributeCardsToPages` the grid that
`DistributeCardsToGrid` makes of it. -/
structure Env (Rot : Type) where
  output_dir : String
  pathAppend : String → String → String
  fsExists : String → Bool
  GetCardRotation : Bool → Bool → Rot
  card_grids : List Grid

/-- The argument of `PdfPage::DrawImage`. -/
structure ImageData (Rot : Type) where
  m_Path : String
  m_Pos : Position
  m_Size : Size
  m_Rotation : Rot

/-- The argument of `PdfPage::DrawDashedCross`. -/
structure CrossData where
  m_Pos : Position
  m_Length : ℚ
  m_Segment : CrossSegment
  deriving DecidableEq

/-- The argument of the line drawing calls. -/
structure LineData where
  m_From : Position
  m_To : Position
  deriving DecidableEq

/-- The structure `PdfPage::LineStyle`. -/
structure LineStyle where
  m_Thickness : ℚ
  m_Color : ColorRGB32f
  deriving DecidableEq

/-- The structure `PdfPage::DashedLineStyle`: a line style and a second colour. -/
structure DashedLineStyle where
  base : LineStyle
  m_SecondColor : ColorRGB32f
  deriving DecidableEq

/-- One call on the canvas or on the log. -/
inductive Cmd (Rot : Type) where
  | NextPage (page : Nat)
  | LogInfo (fmt : String) (p : Nat) (i : Nat) (name : String)
  | DrawImage (page : Nat) (image : ImageData Rot)
  | DrawDashedCross (page : Nat) (cross : CrossData) (style : DashedLineStyle)
  | DrawDashedLine (page : Nat) (line : LineData) (style : DashedLineStyle)
  | DrawSolidLine (page : Nat) (line : LineData) (style : LineStyle)
  | DrawText (page : Nat) (text : String) (box : Size × Size)
  | Finish (page : Nat)
  | Write (file : String)
  | ExportRenderOptionsToJson

/-! ## The locals of `GeneratePdf` -/

/-- The local `guides_color_a`. -/
def guides_color_a (pr : Project) : ColorRGB32f :=
  { r := (pr.m_Data.m_GuidesColorA.r : ℚ) / 255
    g := (pr.m_Data.m_GuidesColorA.g : ℚ) / 255
    b := (pr.m_Data.m_GuidesColorA.b : ℚ) / 255 }

/-- The local `guides_color_b`. -/
def guides_color_b (pr : Project) : ColorRGB32f :=
  { r := (pr.m_Data.m_GuidesColorB.r : ℚ) / 255
    g := (pr.m_Data.m_GuidesColorB.g : ℚ) / 255
    b := (pr.m_Data.m_GuidesColorB.b : ℚ) / 255 }

/-- The local `line_style`. -/
def line_style (pr : Project) : DashedLineStyle :=
  { base := { m_Thickness := pr.m_Data.m_GuidesThickness, m_Color := guides_color_a pr }
    m_SecondColor := guides_color_b pr }

/-- The local `page_width`. -/
def page_width (pr : Project) : ℚ := pr.ComputePageSize.x

/-- The local `page_height`. -/
def page_height (pr : Project) : ℚ := pr.ComputePageSize.y

/-- The local `card_width`. -/
def card_width (pr : Project) : ℚ := pr.CardSizeWithBleed.x

/-- The local `card_height`. -/
def card_height (pr : Project) : ℚ := pr.CardSizeWithBleed.y

/-- The local `columns`. -/
def columns (pr : Project) : Nat := pr.m_Data.m_CardLayout.x

/-- The local `rows`. -/
def rows (pr : Project) : Nat := pr.m_Data.m_CardLayout.y

/-- The local `start_x`. -/
def start_x (pr : Project) : ℚ := pr.ComputeMargins.x

/-- The local `start_y`. -/
def start_y (pr : Project) : ℚ := page_height pr - pr.ComputeMargins.y

/-- The local `backside_start_x`. -/
def backside_start_x (pr : Project) : ℚ := pr.ComputeMaxMargins.x - pr.ComputeMargins.x

/-- The local `backside_start_y`. -/
def backside_start_y (pr : Project) : ℚ := start_y pr

/-- The local `offset`: bleed edge minus guides offset. -/
def offset (pr : Project) : ℚ := pr.m_Data.m_BleedEdge - pr.m_Data.m_GuidesOffset

/-- The local `spacing`. -/
def spacing (pr : Project) : Size := pr.m_Data.m_Spacing

/-! ## The lambdas of `GeneratePdf` -/

section Render

variable {Rot : Type}

/-- The path `img_path` of `draw_image`. -/
def img_path (env : Env Rot) (image : GridImage) : String :=
  env.pathAppend env.output_dir image.m_Image

/-- The `PdfPage::ImageData` that `draw_image` builds when the file exists. -/
def image_data (env : Env Rot) (pr : Project) (image : GridImage) (x y : Nat) (dx dy : ℚ)
    (is_backside : Bool) : ImageData Rot :=
  let orig_x := if is_backside then backside_start_x pr else start_x pr
  let orig_y := if is_backside then backside_start_y pr else start_y pr
  let real_x := orig_x + (x : ℚ) * (card_width pr + (spacing pr).x) + dx
  let real_y := orig_y - ((uadd y 1 : Nat) : ℚ) * card_height pr - (y : ℚ) * (spacing pr).y + dy
  let real_w := card_width pr
  let real_h := card_height pr
  let rotation := env.GetCardRotation is_backside image.m_BacksideShortEdge
  { m_Path := img_path env image
    m_Pos := { x := real_x, y := real_y }
    m_Size := { x := real_w, y := real_h }
    m_Rotation := rotation }

/-- The lambda `draw_image`; the defaults of the source (`dx = dy = 0`,
`is_backside = false`) are written out at the call. -/
def draw_image (env : Env Rot) (pr : Project) (page : Nat) (image : GridImage) (x y : Nat)
    (dx dy : ℚ) (is_backside : Bool) : List (Cmd Rot) :=
  if env.fsExists (img_path env image) then
    [Cmd.DrawImage page (image_data env pr image x y dx dy is_backside)]
  else
    []

/-- The point `(real_x, real_y)` of `draw_cross_at_grid`. -/
def cross_pos (pr : Project) (x y : Nat) (dx dy : ℚ) : Position :=
  { x := start_x pr + (x : ℚ) * (card_width pr + (spacing pr).x) + dx
    y := start_y pr - (y : ℚ) * (card_height pr + (spacing pr).y) + dy }

/-- The lambda `draw_cross_at_grid`. -/
def draw_cross_at_grid (pr : Project) (page : Nat) (x y : Nat) (s : CrossSegment) (dx dy : ℚ) :
    List (Cmd Rot) :=
  let real_x := (cross_pos pr x y dx dy).x
  let real_y := (cross_pos pr x y dx dy).y
  (if pr.m_Data.m_CornerGuides then
    [Cmd.DrawDashedCross page
      { m_Pos := { x := real_x, y := real_y }
        m_Length := pr.m_Data.m_GuidesLength
        m_Segment := if pr.m_Data.m_CrossGuides then CrossSegment.FullCross else s }
      (line_style pr)]
  else [])
  ++
  (if pr.m_Data.m_ExtendedGuides then
    (if x = 0 then
      [Cmd.DrawDashedLine page
        { m_From := { x := real_x, y := real_y }, m_To := { x := 0, y := real_y } }
        (line_style pr)]
    else [])
    ++
    (if x = columns pr then
      [Cmd.DrawDashedLine page
        { m_From := { x := real_x, y := real_y }, m_To := { x := page_width pr, y := real_y } }
        (line_style pr)]
    else [])
    ++
    (if y = rows pr then
      [Cmd.DrawDashedLine page
        { m_From := { x := real_x, y := real_y }, m_To := { x := real_x, y := 0 } }
        (line_style pr)]
    else [])
    ++
    (if y = 0 then
      [Cmd.DrawDashedLine page
        { m_From := { x := real_x, y := real_y }, m_To := { x := real_x, y := page_height pr } }
        (line_style pr)]
    else [])
  else [])

/-- The arguments `(x, y, s, dx, dy)` of the four `draw_cross_at_grid` calls of
`draw_guides`, in the order of the source. -/
def guide_calls (pr : Project) (x y : Nat) : List (Nat × Nat × CrossSegment × ℚ × ℚ) :=
  [ (uadd x 1, uadd y 0, CrossSegment.TopRight, -offset pr - (spacing pr).x, -offset pr),
    (uadd x 1, uadd y 1, CrossSegment.BottomRight, -offset pr - (spacing pr).x,
      offset pr + (spacing pr).y),
    (x, uadd y 0, CrossSegment.TopLeft, offset pr, -offset pr),
    (x, uadd y 1, CrossSegment.BottomLeft, offset pr, offset pr + (spacing pr).y) ]

/-- The lambda `draw_guides`: the four calls of `guide_calls`, one after the other. -/
def draw_guides (pr : Project) (page : Nat) (x y : Nat) : List (Cmd Rot) :=
  (guide_calls pr x y).flatMap
    (fun c => draw_cross_at_grid pr page c.1 c.2.1 c.2.2.1 c.2.2.2.1 c.2.2.2.2)

/-! ## The page loops of `GeneratePdf` -/

/-- The format `c_RenderFmt` of the front loop. -/
def c_RenderFmt_front : String :=
  "Rendering page \x7b\x7d...\nImage number \x7b\x7d - \x7b\x7d"

/-- The format `c_RenderFmt` of the backside loop. -/
def c_RenderFmt_back : String :=
  "Rendering backside for page \x7b\x7d...\nImage number \x7b\x7d - \x7b\x7d"

/-- The body of the inner front loop at `(x, y)`.  The state is the counter `i` and the
commands issued so far on this page. -/
def front_slot (env : Env Rot) (pr : Project) (card_grid : Grid) (p page : Nat) (y x : Nat)
    (st : Nat × List (Cmd Rot)) : Nat × List (Cmd Rot) :=
  match card_grid y x with
  | some card =>
    (uadd st.1 1,
      st.2 ++ [Cmd.LogInfo c_RenderFmt_front (p + 1) (uadd st.1 1) card.m_Image]
        ++ draw_image env pr page card x y 0 0 false
        ++ (if pr.m_Data.m_EnableGuides then draw_guides pr page x y else []))
  | none => st

/-- The local `bx` of the backside loop. -/
def back_bx (pr : Project) (x : Nat) : Nat :=
  let flip_x := decide (pr.m_Data.m_FlipOn = FlipPageOn.LeftEdge)
  if flip_x then usub (usub (columns pr) x) 1 else x

/-- The local `by` of the backside loop. -/
def back_by (pr : Project) (y : Nat) : Nat :=
  let flip_x := decide (pr.m_Data.m_FlipOn = FlipPageOn.LeftEdge)
  let flip_y := !flip_x
  if flip_y then usub (usub (rows pr) y) 1 else y

/-- The back slot `(bx, by)` of the front slot `(x, y)`. -/
def back_slot (pr : Project) (s : Nat × Nat) : Nat × Nat := (back_bx pr s.1, back_by pr s.2)

/-- The local `backside_card` of the backside loop. -/
def backside_card (pr : Project) (card : GridImage) : GridImage :=
  { card with m_Image := pr.GetBacksideImage card.m_Image }

/-- The body of the inner backside loop at `(x, y)`. -/
def back_slot_body (env : Env Rot) (pr : Project) (card_grid : Grid) (p page : Nat) (y x : Nat)
    (st : Nat × List (Cmd Rot)) : Nat × List (Cmd Rot) :=
  match card_grid y x with
  | some card =>
    (uadd st.1 1,
      st.2 ++ [Cmd.LogInfo c_RenderFmt_back (p + 1) (uadd st.1 1) card.m_Image]
        ++ draw_image env pr page (backside_card pr card) (back_bx pr x) (back_by pr y)
            pr.m_Data.m_BacksideOffset 0 true
        ++ (if pr.m_Data.m_EnableGuides && pr.m_Data.m_BacksideEnableGuides then
              draw_guides pr page x y
            else []))
  | none => st

/-- A loop `for y < rows, for x < columns` over a slot body, from `i = 0` and no
command; the result is the commands issued. -/
def grid_loop (pr : Project)
    (body : Nat → Nat → Nat × List (Cmd Rot) → Nat × List (Cmd Rot)) : List (Cmd Rot) :=
  ((List.range (rows pr)).foldl
    (fun st y => (List.range (columns pr)).foldl (fun st x => body y x st) st)
    (0, [])).2

/-- The front block of one page: `NextPage`, the loop over the grid, `Finish`. -/
def front_page (env : Env Rot) (pr : Project) (card_grid : Grid) (p page : Nat) :
    List (Cmd Rot) :=
  [Cmd.NextPage page] ++ grid_loop pr (front_slot env pr card_grid p page) ++ [Cmd.Finish page]

/-- The backside block of one page. -/
def back_page (env : Env Rot) (pr : Project) (card_grid : Grid) (p page : Nat) :
    List (Cmd Rot) :=
  [Cmd.NextPage page] ++ grid_loop pr (back_slot_body env pr card_grid p page)
    ++ [Cmd.Finish page]

/-- The body of the loop over the pages.  The state is the number of `NextPage` calls
made so far and the commands issued so far. -/
def render_page (env : Env Rot) (pr : Project) (p : Nat) (card_grid : Grid)
    (st : Nat × List (Cmd Rot)) : Nat × List (Cmd Rot) :=
  let st1 : Nat × List (Cmd Rot) := (st.1 + 1, st.2 ++ front_page env pr card_grid p st.1)
  if pr.m_Data.m_BacksideEnabled then
    (st1.1 + 1, st1.2 ++ back_page env pr card_grid p st1.1)
  else
    st1

/-- The loop over the pages, from page index `p`. -/
def render_pages (env : Env Rot) (pr : Project) :
    Nat → List Grid → Nat × List (Cmd Rot) → Nat × List (Cmd Rot)
  | _, [], st => st
  | p, g :: gs, st => render_pages env pr (p + 1) gs (render_page env pr p g st)

/-- The function `GeneratePdf`: every page, then `Write` and the export of the render
options.  A failure of the canvas (an exception of `Write`) is not part of the model. -/
def GeneratePdf (env : Env Rot) (pr : Project) : List (Cmd Rot) :=
  (render_pages env pr 0 env.card_grids (0, [])).2
    ++ [Cmd.Write pr.m_Data.m_FileName, Cmd.ExportRenderOptionsToJson]

/-! ## The alignment test document -/

/-- The local `line_style` of `GenerateTestPdf`: 0.2 mm, black. -/
def test_line_style : LineStyle :=
  { m_Thickness := 1 / 5, m_Color := { r := 0, g := 0, b := 0 } }

/-- The function `GenerateTestPdf`.  The front page has the handle 0, the back page the
handle 1. -/
def GenerateTestPdf (pr : Project) : List (Cmd Rot) :=
  let page_size := pr.ComputePageSize
  let page_width := page_size.x
  let page_height := page_size.y
  let page_half : Size := { x := page_size.x / 2, y := page_size.y / 2 }
  let page_fourth : Size := { x := page_size.x / 4, y := page_size.y / 4 }
  let page_eighth : Size := { x := page_size.x / 8, y := page_size.y / 8 }
  let page_sixteenth : Size := { x := page_size.x / 16, y := page_size.y / 16 }
  let front_page : Nat := 0
  let left_line_x := page_fourth.x
  let right_line_x := page_fourth.x + 20
  [Cmd.NextPage front_page,
    Cmd.DrawText front_page
      "This is a test page, follow instructions to verify your settings will work fine for proxies."
      ({ x := 0, y := page_height - page_sixteenth.y },
        { x := page_width, y := page_height - page_eighth.y }),
    Cmd.DrawSolidLine front_page
      { m_From := { x := left_line_x, y := 0 }
        m_To := { x := left_line_x, y := page_height - page_eighth.y } }
      test_line_style]
  ++ (if pr.m_Data.m_BacksideEnabled then
        [Cmd.DrawText front_page
          ("Shine a light through this page, the line on the back should align with the front. "
            ++ "If not, measure the difference and paste it into the backside offset option.")
          ({ x := left_line_x, y := page_height - page_eighth.y },
            { x := page_width, y := page_half.y })]
      else [])
  ++ [Cmd.DrawSolidLine front_page
        { m_From := { x := right_line_x, y := 0 }, m_To := { x := right_line_x, y := page_half.y } }
        test_line_style,
      Cmd.DrawText front_page
        "These lines should be exactly 20mm apart. If not, make sure to print at 100% scaling."
        ({ x := right_line_x, y := page_fourth.y }, { x := page_width, y := 0 })]
  ++ (if pr.m_Data.m_BacksideEnabled then
        let back_page : Nat := 1
        let backside_left_line_x := page_width - page_fourth.x + pr.m_Data.m_BacksideOffset
        [Cmd.NextPage back_page,
          Cmd.DrawSolidLine back_page
            { m_From := { x := backside_left_line_x, y := 0 }
              m_To := { x := backside_left_line_x, y := page_height } }
            test_line_style]
      else [])
  ++ [Cmd.Write "alignment.pdf"]

/-! ## Projections of a command list -/

/-- The commands of a list that are not log messages. -/
def drawsOf (l : List (Cmd Rot)) : List (Cmd Rot) :=
  l.filter (fun c => match c with
    | Cmd.LogInfo _ _ _ _ => false
    | _ => true)

/-- The crosses drawn by a command list, in order. -/
def crossesOf (l : List (Cmd Rot)) : List CrossData :=
  l.filterMap (fun c => match c with
    | Cmd.DrawDashedCross _ cross _ => some cross
    | _ => none)

/-- The dashed lines drawn by a command list, in order. -/
def linesOf (l : List (Cmd Rot)) : List LineData :=
  l.filterMap (fun c => match c with
    | Cmd.DrawDashedLine _ line _ => some line
    | _ => none)

/-- The images drawn by a command list, in order. -/
def imagesOf (l : List (Cmd Rot)) : List (ImageData Rot) :=
  l.filterMap (fun c => match c with
    | Cmd.DrawImage _ image => some image
    | _ => none)

/-- The solid lines drawn by a command list, each with the page it is drawn on. -/
def solidLinesOf (l : List (Cmd Rot)) : List (Nat × LineData) :=
  l.filterMap (fun c => match c with
    | Cmd.DrawSolidLine page line _ => some (page, line)
    | _ => none)

/-- The page handles requested by a command list, in order. -/
def nextPagesOf (l : List (Cmd Rot)) : List Nat :=
  l.filterMap (fun c => match c with
    | Cmd.NextPage page => some page
    | _ => none)

/-- The page handles finished by a command list, in order. -/
def finishesOf (l : List (Cmd Rot)) : List Nat :=
  l.filterMap (fun c => match c with
    | Cmd.Finish page => some page
    | _ => none)

/-- The log messages of a command list, in order. -/
def logsOf (l : List (Cmd Rot)) : List (Cmd Rot) :=
  l.filter (fun c => match c with
    | Cmd.LogInfo _ _ _ _ => true
    | _ => false)

/-- The cells of the grid in the order of the loops: row by row, columns left to
right; a cell is `(y, x)`. -/
def cells (pr : Project) : List (Nat × Nat) :=
  (List.range (rows pr)).flatMap (fun y => (List.range (columns pr)).map (fun x => (y, x)))

/-- The files written by a command list, in order. -/
def writesOf (l : List (Cmd Rot)) : List String :=
  l.filterMap (fun c => match c with
    | Cmd.Write file => some file
    | _ => none)

/-- A command that belongs inside the block of page `h`: a log message or a draw call of
`GeneratePdf` on the page `h`. -/
def on_page (h : Nat) : Cmd Rot → Bool
  | Cmd.LogInfo _ _ _ _ => true
  | Cmd.DrawImage page _ => page == h
  | Cmd.DrawDashedCross page _ _ => page == h
  | Cmd.DrawDashedLine page _ _ => page == h
  | _ => false

/-- The blocks of commands of the pages `gs`, from the page index `p` and the page
handle `n`: a front block for each page, followed by its backside block when backsides
are enabled. -/
def page_blocks (env : Env Rot) (pr : Project) : Nat → Nat → List Grid → List (List (Cmd Rot))
  | _, _, [] => []
  | p, n, g :: gs =>
    if pr.m_Data.m_BacksideEnabled then
      front_page env pr g p n :: back_page env pr g p (n + 1)
        :: page_blocks env pr (p + 1) (n + 2) gs
    else
      front_page env pr g p n :: page_blocks env pr (p + 1) (n + 1) gs

/-- The number of canvas pages of a document of `P` pages. -/
def canvas_pages (pr : Project) (P : Nat) : Nat :=
  if pr.m_Data.m_BacksideEnabled then 2 * P else P

/-- The cards of the occupied cells of a page, in the order of the loops. -/
def occupied (pr : Project) (g : Grid) : List GridImage :=
  (cells pr).filterMap (fun c => g c.1 c.2)

/-- The messages of a loop over the cards `cs` that starts with the counter `i`: the
counter is a `size_t`. -/
def progress_from (fmt : String) (p : Nat) : Nat → List GridImage → List (Cmd Rot)
  | _, [] => []
  | i, c :: cs => Cmd.LogInfo fmt (p + 1) (uadd i 1) c.m_Image :: progress_from fmt p (uadd i 1) cs

/-- The surroundings `env` with the file `f` removed. -/
def with_missing (env : Env Rot) (f : String) : Env Rot :=
  { env with fsExists := fun q => if q = f then false else env.fsExists q }

/-- A command that is not a `DrawImage` of the file `f`. -/
def not_image_of (f : String) : Cmd Rot → Bool
  | Cmd.DrawImage _ image => !decide (image.m_Path = f)
  | _ => true

/-- The state of a loop with the `DrawImage` calls of the file `f` removed. -/
def drop_images (f : String) (st : Nat × List (Cmd Rot)) : Nat × List (Cmd Rot) :=
  (st.1, st.2.filter (not_image_of f))

/-- What one iteration of the front loop draws at `(x, y)`. -/
def front_slot_draws (env : Env Rot) (pr : Project) (card_grid : Grid) (page : Nat)
    (c : Nat × Nat) : List (Cmd Rot) :=
  match card_grid c.1 c.2 with
  | some card =>
    draw_image env pr page card c.2 c.1 0 0 false
      ++ (if pr.m_Data.m_EnableGuides then draw_guides pr page c.2 c.1 else [])
  | none => []

/-- What one iteration of the backside loop draws at `(x, y)`. -/
def back_slot_draws (env : Env Rot) (pr : Project) (card_grid : Grid) (page : Nat)
    (c : Nat × Nat) : List (Cmd Rot) :=
  match card_grid c.1 c.2 with
  | some card =>
    draw_image env pr page (backside_card pr card) (back_bx pr c.2) (back_by pr c.1)
        pr.m_Data.m_BacksideOffset 0 true
      ++ (if pr.m_Data.m_EnableGuides && pr.m_Data.m_BacksideEnableGuides then
            draw_guides pr page c.2 c.1
          else [])
  | none => []

/-- The project with the extended guides toggle set to `b`. -/
def with_extended (pr : Project) (b : Bool) : Project :=
  { pr with m_Data := { pr.m_Data with m_ExtendedGuides := b } }

/-- The project with the corner guides toggle set to `b`. -/
def with_corner (pr : Project) (b : Bool) : Project :=
  { pr with m_Data := { pr.m_Data with m_CornerGuides := b } }

/-- The cross that `draw_cross_at_grid` draws for the call `c` of `guide_calls`. -/
def cross_of_call (pr : Project) (c : Nat × Nat × CrossSegment × ℚ × ℚ) : CrossData :=
  { m_Pos := cross_pos pr c.1 c.2.1 c.2.2.2.1 c.2.2.2.2
    m_Length := pr.m_Data.m_GuidesLength
    m_Segment := if pr.m_Data.m_CrossGuides then CrossSegment.FullCross else c.2.2.1 }

end Render

/-! ## An example project -/

/-- A project with a 2 x 2 layout, used to evaluate the definitions. -/
def exData : ProjectData :=
  { m_FileName := "out.pdf"
    m_BleedEdge := 3
    m_Spacing := { x := 1, y := 2 }
    m_CardLayout := { x := 2, y := 2 }
    m_GuidesColorA := { r := 0, g := 0, b := 0 }
    m_GuidesColorB := { r := 255, g := 255, b := 255 }
    m_GuidesThickness := 1
    m_GuidesOffset := 1
    m_GuidesLength := 4
    m_EnableGuides := true
    m_BacksideEnableGuides := true
    m_CornerGuides := true
    m_CrossGuides := false
    m_ExtendedGuides := true
    m_BacksideEnabled := true
    m_BacksideOffset := 1 / 2
    m_FlipOn := FlipPageOn.LeftEdge }

/-- The example project: cards of 10 x 20 on a page of 100 x 200. -/
def exProject : Project :=
  { m_Data := exData
    CardSizeWithBleed := { x := 10, y := 20 }
    ComputePageSize := { x := 100, y := 200 }
    ComputeMargins := { x := 5, y := 7 }
    ComputeMaxMargins := { x := 79, y := 158 }
    GetBacksideImage := fun _ => "back.png" }

/-- The example project, flipped on the top edge. -/
def exProjectTop : Project :=
  { exProject with m_Data := { exData with m_FlipOn := FlipPageOn.TopEdge } }

/-- The example project with the grid centred on the page (margins of half the free
space) and no backside offset, so that `backside_start_x = start_x`. -/
def exCentred : Project :=
  { exProject with
    m_Data := { exData with m_BacksideOffset := 0 }
    ComputeMargins := { x := 79 / 2, y := 79 } }

/-- The example project with a card of 300 x 300, larger than the page of 100 x 200. -/
def exOversized : Project :=
  { exProject with CardSizeWithBleed := { x := 300, y := 300 } }

/-- A card. -/
def exCard : GridImage := { m_Image := "a.png", m_BacksideShortEdge := false }

/-- A partial page: one card, in the cell of column 0 and row 0. -/
def exGrid : Grid := fun y x => if y = 0 ∧ x = 0 then some exCard else none

/-- Surroundings in which every file exists and a rotation is a number. -/
def exEnv : Env Nat :=
  { output_dir := "out"
    pathAppend := fun a b => a ++ "/" ++ b
    fsExists := fun _ => true
    GetCardRotation := fun is_backside short_edge =>
      if is_backside && short_edge then 2 else 0
    card_grids := [exGrid] }

/-- A page with the same card in the two cells of row 0. -/
def exGridPair : Grid := fun y _ => if y = 0 then some exCard else none

/-- The surroundings of the example for the one page `exGridPair`. -/
def exEnvPair : Env Nat := { exEnv with card_grids := [exGridPair] }

/-- The surroundings of the example in which the file of the card `a.png` is missing. -/
def exEnvMissing : Env Nat := with_missing exEnv (exEnv.pathAppend exEnv.output_dir "a.png")

/-! ## Lemmas on the loops -/

section Lemmas

variable {Rot : Type}

theorem uadd_of_lt {a b : Nat} (h : a + b < SIZE_MOD) : uadd a b = a + b := by
  unfold uadd
  exact Nat.mod_eq_of_lt h

theorem foldl_proj {α σ D : Type} (step : σ → α → σ) (π : σ → List D) (f : α → List D)
    (h : ∀ st a, π (step st a) = π st ++ f a) (l : List α) (st : σ) :
    π (l.foldl step st) = π st ++ l.flatMap f := by
  induction l generalizing st with
  | nil => simp
  | cons a l ih => simp [List.foldl_cons, ih, h, List.flatMap_cons, List.append_assoc]

theorem grid_loop_proj {D : Type} (pr : Project)
    (body : Nat → Nat → Nat × List (Cmd Rot) → Nat × List (Cmd Rot))
    (π : List (Cmd Rot) → List D) (f : Nat × Nat → List D) (hnil : π [] = [])
    (h : ∀ y x st, π (body y x st).2 = π st.2 ++ f (y, x)) :
    π (grid_loop pr body) = (cells pr).flatMap f := by
  unfold grid_loop cells
  have inner : ∀ y (st : Nat × List (Cmd Rot)),
      π ((List.range (columns pr)).foldl (fun st x => body y x st) st).2
        = π st.2 ++ (List.range (columns pr)).flatMap (fun x => f (y, x)) := by
    intro y st
    exact foldl_proj (fun st x => body y x st) (fun st => π st.2) (fun x => f (y, x))
      (fun st x => h y x st) _ st
  have outer := foldl_proj
    (fun st y => (List.range (columns pr)).foldl (fun st x => body y x st) st)
    (fun st => π st.2) (fun y => (List.range (columns pr)).flatMap (fun x => f (y, x)))
    (fun st y => inner y st) (List.range (rows pr)) (0, [])
  rw [outer, hnil, List.nil_append]
  generalize List.range (rows pr) = ys
  induction ys with
  | nil => rfl
  | cons y ys ih =>
    rw [List.flatMap_cons, List.flatMap_cons, List.flatMap_append, ih]
    congr 1
    generalize List.range (columns pr) = xs
    induction xs with
    | nil => rfl
    | cons x xs ihx => rw [List.flatMap_cons, List.map_cons, List.flatMap_cons, ihx]

theorem mem_cells (pr : Project) (y x : Nat) :
    (y, x) ∈ cells pr ↔ y < rows pr ∧ x < columns pr := by
  simp [cells, List.mem_flatMap]

theorem drawsOf_append (l m : List (Cmd Rot)) : drawsOf (l ++ m) = drawsOf l ++ drawsOf m := by
  simp [drawsOf]

theorem drawsOf_draw_image (env : Env Rot) (pr : Project) (page : Nat) (image : GridImage)
    (x y : Nat) (dx dy : ℚ) (b : Bool) :
    drawsOf (draw_image env pr page image x y dx dy b) = draw_image env pr page image x y dx dy b := by
  unfold draw_image drawsOf
  split <;> simp

theorem drawsOf_draw_cross_at_grid (pr : Project) (page x y : Nat) (s : CrossSegment)
    (dx dy : ℚ) :
    drawsOf (draw_cross_at_grid pr page x y s dx dy : List (Cmd Rot))
      = draw_cross_at_grid pr page x y s dx dy := by
  unfold draw_cross_at_grid drawsOf
  rw [List.filter_eq_self]
  intro c hc
  simp only [List.mem_append] at hc
  rcases hc with hc | hc
  · split at hc
    · simp at hc; subst hc; rfl
    · simp at hc
  · split at hc
    · simp only [List.mem_append] at hc
      rcases hc with ((hc | hc) | hc) | hc <;>
      · split at hc
        · simp at hc; subst hc; rfl
        · simp at hc
    · simp at hc

theorem drawsOf_draw_guides (pr : Project) (page x y : Nat) :
    drawsOf (draw_guides pr page x y : List (Cmd Rot)) = draw_guides pr page x y := by
  simp [draw_guides, guide_calls, drawsOf_append, drawsOf_draw_cross_at_grid]

theorem front_slot_proj (env : Env Rot) (pr : Project) (g : Grid) (p page y x : Nat)
    (st : Nat × List (Cmd Rot)) :
    drawsOf (front_slot env pr g p page y x st).2
      = drawsOf st.2 ++ front_slot_draws env pr g page (y, x) := by
  unfold front_slot front_slot_draws
  cases hg : g y x with
  | none => simp
  | some card =>
    simp only [drawsOf_append, drawsOf_draw_image, List.append_assoc]
    congr 1
    have hlog : ∀ (f : String) (a b : Nat) (n : String),
        drawsOf [(Cmd.LogInfo f a b n : Cmd Rot)] = [] := fun _ _ _ _ => rfl
    have hnil : drawsOf ([] : List (Cmd Rot)) = [] := rfl
    rw [hlog, List.nil_append]
    split
    · rw [drawsOf_draw_guides]
    · rw [hnil]

theorem back_slot_proj (env : Env Rot) (pr : Project) (g : Grid) (p page y x : Nat)
    (st : Nat × List (Cmd Rot)) :
    drawsOf (back_slot_body env pr g p page y x st).2
      = drawsOf st.2 ++ back_slot_draws env pr g page (y, x) := by
  unfold back_slot_body back_slot_draws
  cases hg : g y x with
  | none => simp
  | some card =>
    simp only [drawsOf_append, drawsOf_draw_image, List.append_assoc]
    congr 1
    have hlog : ∀ (f : String) (a b : Nat) (n : String),
        drawsOf [(Cmd.LogInfo f a b n : Cmd Rot)] = [] := fun _ _ _ _ => rfl
    have hnil : drawsOf ([] : List (Cmd Rot)) = [] := rfl
    rw [hlog, List.nil_append]
    split
    · rw [drawsOf_draw_guides]
    · rw [hnil]

/-- The front loop draws, cell after cell, what `front_slot_draws` says. -/
theorem front_loop_draws (env : Env Rot) (pr : Project) (g : Grid) (p page : Nat) :
    drawsOf (grid_loop pr (front_slot env pr g p page))
      = (cells pr).flatMap (front_slot_draws env pr g page) :=
  grid_loop_proj pr _ drawsOf _ rfl (fun y x st => front_slot_proj env pr g p page y x st)

/-- The backside loop draws, cell after cell, what `back_slot_draws` says. -/
theorem back_loop_draws (env : Env Rot) (pr : Project) (g : Grid) (p page : Nat) :
    drawsOf (grid_loop pr (back_slot_body env pr g p page))
      = (cells pr).flatMap (back_slot_draws env pr g page) :=
  grid_loop_proj pr _ drawsOf _ rfl (fun y x st => back_slot_proj env pr g p page y x st)

theorem mem_of_mem_drawsOf {c : Cmd Rot} {l : List (Cmd Rot)} (h : c ∈ drawsOf l) : c ∈ l :=
  (List.mem_filter.mp h).1

theorem mem_front_page (env : Env Rot) (pr : Project) (g : Grid) (p page y x : Nat)
    (hy : y < rows pr) (hx : x < columns pr) (c : Cmd Rot)
    (hc : c ∈ front_slot_draws env pr g page (y, x)) : c ∈ front_page env pr g p page := by
  unfold front_page
  refine List.mem_append_left _ (List.mem_append_right _ (mem_of_mem_drawsOf ?_))
  rw [front_loop_draws, List.mem_flatMap]
  exact ⟨(y, x), (mem_cells pr y x).mpr ⟨hy, hx⟩, hc⟩

theorem mem_back_page (env : Env Rot) (pr : Project) (g : Grid) (p page y x : Nat)
    (hy : y < rows pr) (hx : x < columns pr) (c : Cmd Rot)
    (hc : c ∈ back_slot_draws env pr g page (y, x)) : c ∈ back_page env pr g p page := by
  unfold back_page
  refine List.mem_append_left _ (List.mem_append_right _ (mem_of_mem_drawsOf ?_))
  rw [back_loop_draws, List.mem_flatMap]
  exact ⟨(y, x), (mem_cells pr y x).mpr ⟨hy, hx⟩, hc⟩

theorem render_page_mono (env : Env Rot) (pr : Project) (p : Nat) (g : Grid)
    (st : Nat × List (Cmd Rot)) (c : Cmd Rot) (hc : c ∈ st.2) :
    c ∈ (render_page env pr p g st).2 := by
  unfold render_page
  split <;> simp [hc]

theorem render_pages_mono (env : Env Rot) (pr : Project) (gs : List Grid) (p : Nat)
    (st : Nat × List (Cmd Rot)) (c : Cmd Rot) (hc : c ∈ st.2) :
    c ∈ (render_pages env pr p gs st).2 := by
  induction gs generalizing p st with
  | nil => exact hc
  | cons g gs ih => exact ih _ _ (render_page_mono env pr p g st c hc)

/-- The front block of the page with index `p + k` is part of what the loop over the
pages issues. -/
theorem render_pages_front (env : Env Rot) (pr : Project) (gs : List Grid) (p : Nat)
    (st : Nat × List (Cmd Rot)) (k : Nat) (g : Grid) (hg : gs[k]? = some g) :
    ∃ page, ∀ c ∈ front_page env pr g (p + k) page, c ∈ (render_pages env pr p gs st).2 := by
  induction gs generalizing p st k with
  | nil => simp at hg
  | cons g0 gs ih =>
    cases k with
    | zero =>
      simp at hg
      subst hg
      refine ⟨st.1, fun c hc => render_pages_mono env pr gs (p + 1) _ c ?_⟩
      rw [Nat.add_zero] at hc
      unfold render_page
      split <;> simp [hc]
    | succ k =>
      simp at hg
      obtain ⟨page, h⟩ := ih (p + 1) (render_page env pr p g0 st) k hg
      refine ⟨page, fun c hc => ?_⟩
      have e : p + (k + 1) = p + 1 + k := by omega
      rw [e] at hc
      exact h c hc

/-- With backsides enabled, so is the backside block. -/
theorem render_pages_back (env : Env Rot) (pr : Project) (gs : List Grid) (p : Nat)
    (st : Nat × List (Cmd Rot)) (k : Nat) (g : Grid) (hg : gs[k]? = some g)
    (hb : pr.m_Data.m_BacksideEnabled = true) :
    ∃ page, ∀ c ∈ back_page env pr g (p + k) page, c ∈ (render_pages env pr p gs st).2 := by
  induction gs generalizing p st k with
  | nil => simp at hg
  | cons g0 gs ih =>
    cases k with
    | zero =>
      simp at hg
      subst hg
      refine ⟨st.1 + 1, fun c hc => render_pages_mono env pr gs (p + 1) _ c ?_⟩
      rw [Nat.add_zero] at hc
      unfold render_page
      simp [hb, hc]
    | succ k =>
      simp at hg
      obtain ⟨page, h⟩ := ih (p + 1) (render_page env pr p g0 st) k hg
      refine ⟨page, fun c hc => ?_⟩
      have e : p + (k + 1) = p + 1 + k := by omega
      rw [e] at hc
      exact h c hc

/-- Every command of `draw_cross_at_grid` is a dashed cross or a dashed line on the
page it was given, in the style `line_style`. -/
theorem draw_cross_at_grid_cases (pr : Project) (page x y : Nat) (s : CrossSegment)
    (dx dy : ℚ) (c : Cmd Rot) (hc : c ∈ draw_cross_at_grid pr page x y s dx dy) :
    (∃ cross, c = Cmd.DrawDashedCross page cross (line_style pr))
      ∨ (∃ line, c = Cmd.DrawDashedLine page line (line_style pr)) := by
  unfold draw_cross_at_grid at hc
  simp only [List.mem_append] at hc
  rcases hc with hc | hc
  · split at hc
    · simp at hc; exact Or.inl ⟨_, hc⟩
    · simp at hc
  · split at hc
    · simp only [List.mem_append] at hc
      rcases hc with ((hc | hc) | hc) | hc <;>
      · split at hc
        · simp at hc; exact Or.inr ⟨_, hc⟩
        · simp at hc
    · simp at hc

theorem draw_guides_cases (pr : Project) (page x y : Nat) (c : Cmd Rot)
    (hc : c ∈ draw_guides pr page x y) :
    (∃ cross, c = Cmd.DrawDashedCross page cross (line_style pr))
      ∨ (∃ line, c = Cmd.DrawDashedLine page line (line_style pr)) := by
  unfold draw_guides at hc
  rw [List.mem_flatMap] at hc
  obtain ⟨a, -, ha⟩ := hc
  exact draw_cross_at_grid_cases pr page _ _ _ _ _ c ha

theorem imagesOf_append (l m : List (Cmd Rot)) :
    imagesOf (l ++ m) = imagesOf l ++ imagesOf m := by
  simp [imagesOf]

theorem imagesOf_draw_guides (pr : Project) (page x y : Nat) :
    imagesOf (draw_guides pr page x y : List (Cmd Rot)) = [] := by
  unfold imagesOf
  rw [List.filterMap_eq_nil_iff]
  intro c hc
  rcases draw_guides_cases pr page x y c hc with ⟨_, h⟩ | ⟨_, h⟩ <;> subst h <;> rfl

theorem usub_mirror {n i : Nat} (hn : n < SIZE_MOD) (hi : i < n) :
    usub (usub n i) 1 = n - 1 - i := by
  unfold usub SIZE_MOD at *
  omega

theorem back_slot_inside (pr : Project) (s : Nat × Nat)
    (hc : columns pr < SIZE_MOD) (hr : rows pr < SIZE_MOD)
    (hx : s.1 < columns pr) (hy : s.2 < rows pr) :
    (back_slot pr s).1 < columns pr ∧ (back_slot pr s).2 < rows pr := by
  have hbx := usub_mirror hc hx
  have hby := usub_mirror hr hy
  cases hf : pr.m_Data.m_FlipOn with
  | LeftEdge =>
    simp only [back_slot, back_bx, back_by, hf, hbx]
    constructor
    · simp; omega
    · simpa using hy
  | TopEdge =>
    simp only [back_slot, back_bx, back_by, hf, hby]
    constructor
    · simpa using hx
    · simp; omega

theorem back_slot_twice (pr : Project) (s : Nat × Nat)
    (hc : columns pr < SIZE_MOD) (hr : rows pr < SIZE_MOD)
    (hx : s.1 < columns pr) (hy : s.2 < rows pr) :
    back_slot pr (back_slot pr s) = s := by
  have hbx := usub_mirror hc hx
  have hby := usub_mirror hr hy
  have hbx2 : usub (usub (columns pr) (columns pr - 1 - s.1)) 1 = s.1 := by
    rw [usub_mirror hc (by omega)]; omega
  have hby2 : usub (usub (rows pr) (rows pr - 1 - s.2)) 1 = s.2 := by
    rw [usub_mirror hr (by omega)]; omega
  cases hf : pr.m_Data.m_FlipOn with
  | LeftEdge => simp [back_slot, back_bx, back_by, hf, hbx, hbx2]
  | TopEdge => simp [back_slot, back_bx, back_by, hf, hby, hby2]

/-- The column index and the `dx` of a call of `draw_guides`: the left corners are
moved by `offset`, the right corners by `-offset - spacing.x`. -/
theorem guide_calls_column (pr : Project) (x y : Nat) (c : Nat × Nat × CrossSegment × ℚ × ℚ)
    (hc : c ∈ guide_calls pr x y) :
    (c.1 = x ∧ c.2.2.2.1 = offset pr)
      ∨ (c.1 = uadd x 1 ∧ c.2.2.2.1 = -offset pr - (spacing pr).x) := by
  simp only [guide_calls, List.mem_cons, List.mem_singleton, List.not_mem_nil, or_false] at hc
  rcases hc with rfl | rfl | rfl | rfl
  · exact Or.inr ⟨rfl, rfl⟩
  · exact Or.inr ⟨rfl, rfl⟩
  · exact Or.inl ⟨rfl, rfl⟩
  · exact Or.inl ⟨rfl, rfl⟩

/-- The row index and the `dy` of a call of `draw_guides`: the top corners are moved by
`-offset`, the bottom corners by `offset + spacing.y`. -/
theorem guide_calls_row (pr : Project) (x y : Nat) (c : Nat × Nat × CrossSegment × ℚ × ℚ)
    (hc : c ∈ guide_calls pr x y) :
    (c.2.1 = uadd y 0 ∧ c.2.2.2.2 = -offset pr)
      ∨ (c.2.1 = uadd y 1 ∧ c.2.2.2.2 = offset pr + (spacing pr).y) := by
  simp only [guide_calls, List.mem_cons, List.mem_singleton, List.not_mem_nil, or_false] at hc
  rcases hc with rfl | rfl | rfl | rfl
  · exact Or.inl ⟨rfl, rfl⟩
  · exact Or.inr ⟨rfl, rfl⟩
  · exact Or.inl ⟨rfl, rfl⟩
  · exact Or.inr ⟨rfl, rfl⟩

/-- The lines of one `draw_cross_at_grid` call. -/
theorem linesOf_draw_cross_at_grid (pr : Project) (page x y : Nat) (s : CrossSegment)
    (dx dy : ℚ) :
    linesOf (draw_cross_at_grid pr page x y s dx dy : List (Cmd Rot))
      = if pr.m_Data.m_ExtendedGuides then
          (if x = 0 then
            [{ m_From := cross_pos pr x y dx dy
               m_To := { x := 0, y := (cross_pos pr x y dx dy).y } }]
          else [])
          ++ (if x = columns pr then
            [{ m_From := cross_pos pr x y dx dy
               m_To := { x := page_width pr, y := (cross_pos pr x y dx dy).y } }]
          else [])
          ++ (if y = rows pr then
            [{ m_From := cross_pos pr x y dx dy
               m_To := { x := (cross_pos pr x y dx dy).x, y := 0 } }]
          else [])
          ++ (if y = 0 then
            [{ m_From := cross_pos pr x y dx dy
               m_To := { x := (cross_pos pr x y dx dy).x, y := page_height pr } }]
          else [])
        else [] := by
  unfold draw_cross_at_grid linesOf
  split_ifs <;> rfl

/-- The crosses of one `draw_cross_at_grid` call. -/
theorem crossesOf_draw_cross_at_grid (pr : Project) (page x y : Nat) (s : CrossSegment)
    (dx dy : ℚ) :
    crossesOf (draw_cross_at_grid pr page x y s dx dy : List (Cmd Rot))
      = if pr.m_Data.m_CornerGuides then
          [{ m_Pos := cross_pos pr x y dx dy
             m_Length := pr.m_Data.m_GuidesLength
             m_Segment := if pr.m_Data.m_CrossGuides then CrossSegment.FullCross else s }]
        else [] := by
  unfold draw_cross_at_grid crossesOf
  split_ifs <;> rfl

theorem mem_linesOf (l : List (Cmd Rot)) (line : LineData) :
    line ∈ linesOf l ↔ ∃ page st, Cmd.DrawDashedLine page line st ∈ l := by
  unfold linesOf
  rw [List.mem_filterMap]
  constructor
  · rintro ⟨c, hc, h⟩
    cases c <;> simp at h
    subst h
    exact ⟨_, _, hc⟩
  · rintro ⟨page, st, h⟩
    exact ⟨_, h, rfl⟩

theorem crossesOf_append (l m : List (Cmd Rot)) :
    crossesOf (l ++ m) = crossesOf l ++ crossesOf m := by
  simp [crossesOf]

theorem linesOf_append (l m : List (Cmd Rot)) :
    linesOf (l ++ m) = linesOf l ++ linesOf m := by
  simp [linesOf]

theorem crossesOf_draw_image (env : Env Rot) (pr : Project) (page : Nat) (image : GridImage)
    (x y : Nat) (dx dy : ℚ) (b : Bool) :
    crossesOf (draw_image env pr page image x y dx dy b) = [] := by
  unfold draw_image
  split <;> rfl

theorem linesOf_draw_image (env : Env Rot) (pr : Project) (page : Nat) (image : GridImage)
    (x y : Nat) (dx dy : ℚ) (b : Bool) :
    linesOf (draw_image env pr page image x y dx dy b) = [] := by
  unfold draw_image
  split <;> rfl

/-- The crosses of `draw_guides`: one for each of the four calls when corner guides are
on, none otherwise. -/
theorem crossesOf_draw_guides (pr : Project) (page x y : Nat) :
    crossesOf (draw_guides pr page x y : List (Cmd Rot))
      = if pr.m_Data.m_CornerGuides then (guide_calls pr x y).map (cross_of_call pr)
        else [] := by
  unfold draw_guides guide_calls
  simp only [List.flatMap_cons, List.flatMap_nil, crossesOf_append,
    crossesOf_draw_cross_at_grid, List.append_nil, cross_of_call, List.map_cons, List.map_nil]
  split <;> rfl

theorem linesOf_draw_guides (pr : Project) (page x y : Nat) :
    linesOf (draw_guides pr page x y : List (Cmd Rot))
      = (guide_calls pr x y).flatMap
          (fun c => linesOf
            (draw_cross_at_grid pr page c.1 c.2.1 c.2.2.1 c.2.2.2.1 c.2.2.2.2 : List (Cmd Rot))) := by
  unfold draw_guides guide_calls
  simp only [List.flatMap_cons, List.flatMap_nil, linesOf_append]
  rfl

/-- The crosses of the front loop body, as the loop lemma wants them. -/
theorem front_slot_crosses (env : Env Rot) (pr : Project) (g : Grid) (p page y x : Nat)
    (st : Nat × List (Cmd Rot)) :
    crossesOf (front_slot env pr g p page y x st).2
      = crossesOf st.2
        ++ (if (g y x).isSome ∧ pr.m_Data.m_EnableGuides = true then
              crossesOf (draw_guides pr page x y : List (Cmd Rot))
            else []) := by
  unfold front_slot
  have hlog : ∀ (f : String) (a b : Nat) (n : String),
      crossesOf [(Cmd.LogInfo f a b n : Cmd Rot)] = [] := fun _ _ _ _ => rfl
  have hnil : crossesOf ([] : List (Cmd Rot)) = [] := rfl
  cases hg : g y x with
  | none => simp
  | some card =>
    simp only [crossesOf_append, hlog, crossesOf_draw_image, List.append_nil, Option.isSome_some,
      true_and]
    split
    · rfl
    · rw [hnil]

/-- The crosses of the backside loop body: those of `draw_guides` at the front cell
`(x, y)` of the loop. -/
theorem back_slot_crosses (env : Env Rot) (pr : Project) (g : Grid) (p page y x : Nat)
    (st : Nat × List (Cmd Rot)) :
    crossesOf (back_slot_body env pr g p page y x st).2
      = crossesOf st.2
        ++ (if (g y x).isSome
              ∧ (pr.m_Data.m_EnableGuides && pr.m_Data.m_BacksideEnableGuides) = true then
              crossesOf (draw_guides pr page x y : List (Cmd Rot))
            else []) := by
  unfold back_slot_body
  have hlog : ∀ (f : String) (a b : Nat) (n : String),
      crossesOf [(Cmd.LogInfo f a b n : Cmd Rot)] = [] := fun _ _ _ _ => rfl
  have hnil : crossesOf ([] : List (Cmd Rot)) = [] := rfl
  cases hg : g y x with
  | none => simp
  | some card =>
    simp only [crossesOf_append, hlog, crossesOf_draw_image, List.append_nil, Option.isSome_some,
      true_and]
    split
    · rfl
    · rw [hnil]

/-- The crosses of the backside block of a page. -/
theorem crossesOf_back_page (env : Env Rot) (pr : Project) (g : Grid) (p page : Nat) :
    crossesOf (back_page env pr g p page)
      = (cells pr).flatMap (fun c =>
          if (g c.1 c.2).isSome
              ∧ (pr.m_Data.m_EnableGuides && pr.m_Data.m_BacksideEnableGuides) = true then
            crossesOf (draw_guides pr page c.2 c.1 : List (Cmd Rot))
          else []) := by
  unfold back_page
  have h1 : ∀ n, crossesOf [(Cmd.NextPage n : Cmd Rot)] = [] := fun _ => rfl
  have h2 : ∀ n, crossesOf [(Cmd.Finish n : Cmd Rot)] = [] := fun _ => rfl
  rw [crossesOf_append, crossesOf_append, h1, h2, List.nil_append, List.append_nil]
  exact grid_loop_proj pr _ crossesOf _ rfl
    (fun y x st => back_slot_crosses env pr g p page y x st)

/-- The images of the backside loop body: the one of `draw_image` at the back slot. -/
theorem back_slot_images (env : Env Rot) (pr : Project) (g : Grid) (p page y x : Nat)
    (st : Nat × List (Cmd Rot)) :
    imagesOf (back_slot_body env pr g p page y x st).2
      = imagesOf st.2
        ++ (match g y x with
            | some card =>
              imagesOf (draw_image env pr page (backside_card pr card) (back_bx pr x)
                (back_by pr y) pr.m_Data.m_BacksideOffset 0 true)
            | none => []) := by
  unfold back_slot_body
  have hlog : ∀ (f : String) (a b : Nat) (n : String),
      imagesOf [(Cmd.LogInfo f a b n : Cmd Rot)] = [] := fun _ _ _ _ => rfl
  have hnil : imagesOf ([] : List (Cmd Rot)) = [] := rfl
  cases hg : g y x with
  | none => simp
  | some card =>
    simp only [imagesOf_append, hlog, List.append_nil, List.nil_append, List.append_assoc]
    split
    · rw [imagesOf_draw_guides, List.append_nil]
    · rw [hnil, List.append_nil]

/-- The images of the backside block of a page. -/
theorem imagesOf_back_page (env : Env Rot) (pr : Project) (g : Grid) (p page : Nat) :
    imagesOf (back_page env pr g p page)
      = (cells pr).flatMap (fun c =>
          match g c.1 c.2 with
          | some card =>
            imagesOf (draw_image env pr page (backside_card pr card) (back_bx pr c.2)
              (back_by pr c.1) pr.m_Data.m_BacksideOffset 0 true)
          | none => []) := by
  unfold back_page
  have h1 : ∀ n, imagesOf [(Cmd.NextPage n : Cmd Rot)] = [] := fun _ => rfl
  have h2 : ∀ n, imagesOf [(Cmd.Finish n : Cmd Rot)] = [] := fun _ => rfl
  rw [imagesOf_append, imagesOf_append, h1, h2, List.nil_append, List.append_nil]
  exact grid_loop_proj pr _ imagesOf _ rfl
    (fun y x st => back_slot_images env pr g p page y x st)

/-- The two nested loops over the grid are one loop over `cells`. -/
theorem grid_loop_cells (pr : Project)
    (body : Nat → Nat → Nat × List (Cmd Rot) → Nat × List (Cmd Rot)) :
    grid_loop pr body
      = ((cells pr).foldl (fun st c => body c.1 c.2 st) (0, [])).2 := by
  unfold grid_loop cells
  congr 1
  generalize ((0, []) : Nat × List (Cmd Rot)) = st
  generalize List.range (rows pr) = ys
  induction ys generalizing st with
  | nil => rfl
  | cons y ys ih =>
    rw [List.foldl_cons, List.flatMap_cons, List.foldl_append, List.foldl_map]
    exact ih _

theorem logsOf_append (l m : List (Cmd Rot)) : logsOf (l ++ m) = logsOf l ++ logsOf m := by
  simp [logsOf]

theorem logsOf_draw_image (env : Env Rot) (pr : Project) (page : Nat) (image : GridImage)
    (x y : Nat) (dx dy : ℚ) (b : Bool) :
    logsOf (draw_image env pr page image x y dx dy b) = [] := by
  unfold draw_image
  split <;> rfl

theorem logsOf_draw_guides (pr : Project) (page x y : Nat) :
    logsOf (draw_guides pr page x y : List (Cmd Rot)) = [] := by
  unfold logsOf
  rw [List.filter_eq_nil_iff]
  intro c hc
  rcases draw_guides_cases pr page x y c hc with ⟨_, h⟩ | ⟨_, h⟩ <;> subst h <;> simp

/-- The state after one iteration of the front loop: its messages and its counter. -/
theorem front_slot_logs (env : Env Rot) (pr : Project) (g : Grid) (p page y x : Nat)
    (st : Nat × List (Cmd Rot)) :
    logsOf (front_slot env pr g p page y x st).2
        = logsOf st.2 ++ progress_from c_RenderFmt_front p st.1 (g y x).toList
      ∧ (front_slot env pr g p page y x st).1
        = (match g y x with
            | some _ => uadd st.1 1
            | none => st.1) := by
  have hlog : ∀ (f : String) (a b : Nat) (n : String),
      logsOf [(Cmd.LogInfo f a b n : Cmd Rot)] = [Cmd.LogInfo f a b n] := fun _ _ _ _ => rfl
  have hnil : logsOf ([] : List (Cmd Rot)) = [] := rfl
  unfold front_slot
  cases hg : g y x with
  | none => simp [progress_from]
  | some card =>
    refine ⟨?_, rfl⟩
    simp only [Option.toList, progress_from]
    rw [logsOf_append, logsOf_append, logsOf_append, hlog, logsOf_draw_image, List.append_nil]
    split
    · rw [logsOf_draw_guides, List.append_nil]
    · rw [hnil, List.append_nil]

theorem progress_from_append (fmt : String) (p i : Nat) (a b : List GridImage) :
    (progress_from fmt p i (a ++ b) : List (Cmd Rot))
      = progress_from fmt p i a ++ progress_from fmt p (a.foldl (fun k _ => uadd k 1) i) b := by
  induction a generalizing i with
  | nil => rfl
  | cons c a ih => simp [progress_from, ih]

/-- The messages of the front loop, from any state. -/
theorem front_logs_fold (env : Env Rot) (pr : Project) (g : Grid) (p page : Nat)
    (cs : List (Nat × Nat)) (st : Nat × List (Cmd Rot)) :
    logsOf (cs.foldl (fun st c => front_slot env pr g p page c.1 c.2 st) st).2
      = logsOf st.2
        ++ progress_from c_RenderFmt_front p st.1 (cs.filterMap (fun c => g c.1 c.2)) := by
  induction cs generalizing st with
  | nil => simp [progress_from]
  | cons c cs ih =>
    rw [List.foldl_cons, ih]
    obtain ⟨h1, h2⟩ := front_slot_logs env pr g p page c.1 c.2 st
    rw [h1, h2, List.filterMap_cons]
    cases hg : g c.1 c.2 with
    | none => simp [progress_from]
    | some card => simp [progress_from]

/-- The state after one iteration of the back loop: its messages and its counter. -/
theorem back_slot_logs (env : Env Rot) (pr : Project) (g : Grid) (p page y x : Nat)
    (st : Nat × List (Cmd Rot)) :
    logsOf (back_slot_body env pr g p page y x st).2
        = logsOf st.2 ++ progress_from c_RenderFmt_back p st.1 (g y x).toList
      ∧ (back_slot_body env pr g p page y x st).1
        = (match g y x with
            | some _ => uadd st.1 1
            | none => st.1) := by
  have hlog : ∀ (f : String) (a b : Nat) (n : String),
      logsOf [(Cmd.LogInfo f a b n : Cmd Rot)] = [Cmd.LogInfo f a b n] := fun _ _ _ _ => rfl
  have hnil : logsOf ([] : List (Cmd Rot)) = [] := rfl
  unfold back_slot_body
  cases hg : g y x with
  | none => simp [progress_from]
  | some card =>
    refine ⟨?_, rfl⟩
    simp only [Option.toList, progress_from]
    rw [logsOf_append, logsOf_append, logsOf_append, hlog, logsOf_draw_image, List.append_nil]
    split
    · rw [logsOf_draw_guides, List.append_nil]
    · rw [hnil, List.append_nil]

/-- The messages of the back loop, from any state. -/
theorem back_logs_fold (env : Env Rot) (pr : Project) (g : Grid) (p page : Nat)
    (cs : List (Nat × Nat)) (st : Nat × List (Cmd Rot)) :
    logsOf (cs.foldl (fun st c => back_slot_body env pr g p page c.1 c.2 st) st).2
      = logsOf st.2
        ++ progress_from c_RenderFmt_back p st.1 (cs.filterMap (fun c => g c.1 c.2)) := by
  induction cs generalizing st with
  | nil => simp [progress_from]
  | cons c cs ih =>
    rw [List.foldl_cons, ih]
    obtain ⟨h1, h2⟩ := back_slot_logs env pr g p page c.1 c.2 st
    rw [h1, h2, List.filterMap_cons]
    cases hg : g c.1 c.2 with
    | none => simp [progress_from]
    | some card => simp [progress_from]

/-- While the counter does not wrap, the `k`-th message carries the index `k + 1`. -/
theorem progress_from_enum (fmt : String) (p : Nat) (cs : List GridImage) (i : Nat)
    (h : i + cs.length < SIZE_MOD) :
    (progress_from fmt p i cs : List (Cmd Rot))
      = (cs.enumFrom i).map (fun kc => Cmd.LogInfo fmt (p + 1) (kc.1 + 1) kc.2.m_Image) := by
  induction cs generalizing i with
  | nil => rfl
  | cons c cs ih =>
    have hu : uadd i 1 = i + 1 := uadd_of_lt (by simp at h; omega)
    simp only [progress_from, hu, List.enumFrom_cons, List.map_cons]
    rw [ih (i + 1) (by simp at h; omega)]

/-- The images of the front loop body. -/
theorem front_slot_images (env : Env Rot) (pr : Project) (g : Grid) (p page y x : Nat)
    (st : Nat × List (Cmd Rot)) :
    imagesOf (front_slot env pr g p page y x st).2
      = imagesOf st.2
        ++ (match g y x with
            | some card => imagesOf (draw_image env pr page card x y 0 0 false)
            | none => []) := by
  unfold front_slot
  have hlog : ∀ (f : String) (a b : Nat) (n : String),
      imagesOf [(Cmd.LogInfo f a b n : Cmd Rot)] = [] := fun _ _ _ _ => rfl
  have hnil : imagesOf ([] : List (Cmd Rot)) = [] := rfl
  cases hg : g y x with
  | none => simp
  | some card =>
    simp only [imagesOf_append, hlog, List.append_nil, List.nil_append, List.append_assoc]
    split
    · rw [imagesOf_draw_guides, List.append_nil]
    · rw [hnil, List.append_nil]

/-- The images of the front block of a page. -/
theorem imagesOf_front_page (env : Env Rot) (pr : Project) (g : Grid) (p page : Nat) :
    imagesOf (front_page env pr g p page)
      = (cells pr).flatMap (fun c =>
          match g c.1 c.2 with
          | some card => imagesOf (draw_image env pr page card c.2 c.1 0 0 false)
          | none => []) := by
  unfold front_page
  have h1 : ∀ n, imagesOf [(Cmd.NextPage n : Cmd Rot)] = [] := fun _ => rfl
  have h2 : ∀ n, imagesOf [(Cmd.Finish n : Cmd Rot)] = [] := fun _ => rfl
  rw [imagesOf_append, imagesOf_append, h1, h2, List.nil_append, List.append_nil]
  exact grid_loop_proj pr _ imagesOf _ rfl
    (fun y x st => front_slot_images env pr g p page y x st)

/-- The number of images of a front page: the occupied cells whose file exists. -/
theorem front_images_count (env : Env Rot) (pr : Project) (g : Grid) (page : Nat)
    (cs : List (Nat × Nat)) :
    (cs.flatMap (fun c =>
        match g c.1 c.2 with
        | some card => imagesOf (draw_image env pr page card c.2 c.1 0 0 false)
        | none => [])).length
      = ((cs.filterMap (fun c => g c.1 c.2)).filter
          (fun card => env.fsExists (img_path env card))).length := by
  induction cs with
  | nil => rfl
  | cons c cs ih =>
    rw [List.flatMap_cons, List.length_append, ih, List.filterMap_cons]
    cases hg : g c.1 c.2 with
    | none => simp
    | some card =>
      simp only [draw_image]
      cases hf : env.fsExists (img_path env card) with
      | false => simp [List.filter_cons, hf, imagesOf]
      | true => simp [List.filter_cons, hf, imagesOf]; omega

/-- The messages of the front block of a page. -/
theorem logsOf_front_page (env : Env Rot) (pr : Project) (g : Grid) (p page : Nat) :
    logsOf (front_page env pr g p page)
      = progress_from c_RenderFmt_front p 0 (occupied pr g) := by
  unfold front_page occupied
  have h1 : ∀ n, logsOf [(Cmd.NextPage n : Cmd Rot)] = [] := fun _ => rfl
  have h2 : ∀ n, logsOf [(Cmd.Finish n : Cmd Rot)] = [] := fun _ => rfl
  rw [logsOf_append, logsOf_append, h1, h2, List.nil_append, List.append_nil, grid_loop_cells,
    front_logs_fold]
  rfl

/-- The messages of the backside block of a page. -/
theorem logsOf_back_page (env : Env Rot) (pr : Project) (g : Grid) (p page : Nat) :
    logsOf (back_page env pr g p page)
      = progress_from c_RenderFmt_back p 0 (occupied pr g) := by
  unfold back_page occupied
  have h1 : ∀ n, logsOf [(Cmd.NextPage n : Cmd Rot)] = [] := fun _ => rfl
  have h2 : ∀ n, logsOf [(Cmd.Finish n : Cmd Rot)] = [] := fun _ => rfl
  rw [logsOf_append, logsOf_append, h1, h2, List.nil_append, List.append_nil, grid_loop_cells,
    back_logs_fold]
  rfl

theorem page_blocks_cons_back (env : Env Rot) (pr : Project) (g : Grid) (gs : List Grid)
    (p n : Nat) (hb : pr.m_Data.m_BacksideEnabled = true) :
    page_blocks env pr p n (g :: gs)
      = front_page env pr g p n :: back_page env pr g p (n + 1)
          :: page_blocks env pr (p + 1) (n + 2) gs := by
  rw [page_blocks, if_pos hb]

theorem page_blocks_cons_front (env : Env Rot) (pr : Project) (g : Grid) (gs : List Grid)
    (p n : Nat) (hb : pr.m_Data.m_BacksideEnabled = false) :
    page_blocks env pr p n (g :: gs)
      = front_page env pr g p n :: page_blocks env pr (p + 1) (n + 1) gs := by
  rw [page_blocks, if_neg (by simp [hb])]

/-- The loop over the pages issues the blocks of `page_blocks`, one after the other. -/
theorem render_pages_blocks (env : Env Rot) (pr : Project) (gs : List Grid) (p : Nat)
    (st : Nat × List (Cmd Rot)) :
    render_pages env pr p gs st
      = (st.1 + canvas_pages pr gs.length, st.2 ++ (page_blocks env pr p st.1 gs).flatten) := by
  induction gs generalizing p st with
  | nil => simp [render_pages, page_blocks, canvas_pages]
  | cons g gs ih =>
    rw [render_pages, ih]
    cases hb : pr.m_Data.m_BacksideEnabled
    · rw [page_blocks_cons_front env pr g gs p st.1 hb]
      simp only [render_page, canvas_pages, hb, List.flatten_cons, List.append_assoc,
        List.length_cons, Bool.false_eq_true, if_false]
      congr 1
      omega
    · rw [page_blocks_cons_back env pr g gs p st.1 hb]
      simp only [render_page, canvas_pages, hb, List.flatten_cons, List.append_assoc,
        List.length_cons, if_true]
      congr 1
      omega

theorem page_blocks_length (env : Env Rot) (pr : Project) (gs : List Grid) (p n : Nat) :
    (page_blocks env pr p n gs).length = canvas_pages pr gs.length := by
  induction gs generalizing p n with
  | nil => simp [page_blocks, canvas_pages]
  | cons g gs ih =>
    cases hb : pr.m_Data.m_BacksideEnabled
    · rw [page_blocks_cons_front env pr g gs p n hb, List.length_cons, ih]
      simp [canvas_pages, hb]
    · rw [page_blocks_cons_back env pr g gs p n hb, List.length_cons, List.length_cons, ih]
      simp [canvas_pages, hb]
      omega

theorem foldl_all {α σ : Type} (P : σ → Prop) (step : σ → α → σ)
    (h : ∀ st a, P st → P (step st a)) (l : List α) (st : σ) (h0 : P st) :
    P (l.foldl step st) := by
  induction l generalizing st with
  | nil => exact h0
  | cons a l ih => exact ih _ (h st a h0)

theorem on_page_draw_image (env : Env Rot) (pr : Project) (page : Nat) (image : GridImage)
    (x y : Nat) (dx dy : ℚ) (b : Bool) (c : Cmd Rot)
    (hc : c ∈ draw_image env pr page image x y dx dy b) : on_page page c = true := by
  unfold draw_image at hc
  split at hc
  · simp at hc; subst hc; simp [on_page]
  · simp at hc

theorem on_page_draw_guides (pr : Project) (page x y : Nat) (c : Cmd Rot)
    (hc : c ∈ draw_guides pr page x y) : on_page page c = true := by
  rcases draw_guides_cases pr page x y c hc with ⟨_, h⟩ | ⟨_, h⟩ <;> subst h <;> simp [on_page]

theorem on_page_front_slot (env : Env Rot) (pr : Project) (g : Grid) (p page y x : Nat)
    (st : Nat × List (Cmd Rot)) (h : ∀ c ∈ st.2, on_page page c = true) :
    ∀ c ∈ (front_slot env pr g p page y x st).2, on_page page c = true := by
  unfold front_slot
  cases hg : g y x with
  | none => exact h
  | some card =>
    intro c hc
    simp only [List.mem_append, List.mem_singleton] at hc
    rcases hc with ((hc | hc) | hc) | hc
    · exact h c hc
    · subst hc; rfl
    · exact on_page_draw_image _ _ _ _ _ _ _ _ _ c hc
    · split at hc
      · exact on_page_draw_guides _ _ _ _ c hc
      · simp at hc

theorem on_page_back_slot (env : Env Rot) (pr : Project) (g : Grid) (p page y x : Nat)
    (st : Nat × List (Cmd Rot)) (h : ∀ c ∈ st.2, on_page page c = true) :
    ∀ c ∈ (back_slot_body env pr g p page y x st).2, on_page page c = true := by
  unfold back_slot_body
  cases hg : g y x with
  | none => exact h
  | some card =>
    intro c hc
    simp only [List.mem_append, List.mem_singleton] at hc
    rcases hc with ((hc | hc) | hc) | hc
    · exact h c hc
    · subst hc; rfl
    · exact on_page_draw_image _ _ _ _ _ _ _ _ _ c hc
    · split at hc
      · exact on_page_draw_guides _ _ _ _ c hc
      · simp at hc

/-- Every command of a grid loop is a message or a draw call on the page of the loop. -/
theorem on_page_grid_loop (pr : Project) (page : Nat)
    (body : Nat → Nat → Nat × List (Cmd Rot) → Nat × List (Cmd Rot))
    (h : ∀ y x st, (∀ c ∈ st.2, on_page page c = true) →
      ∀ c ∈ (body y x st).2, on_page page c = true) :
    ∀ c ∈ grid_loop pr body, on_page page c = true := by
  rw [grid_loop_cells]
  exact foldl_all (fun st : Nat × List (Cmd Rot) => ∀ c ∈ st.2, on_page page c = true)
    (fun (st : Nat × List (Cmd Rot)) (c : Nat × Nat) => body c.1 c.2 st)
    (fun st a hst => h a.1 a.2 st hst) (cells pr) (0, []) (by simp)

/-- A block: `NextPage h`, commands on the page `h`, `Finish h`. -/
theorem page_blocks_get (env : Env Rot) (pr : Project) (gs : List Grid) (p n h : Nat)
    (b : List (Cmd Rot)) (hb : (page_blocks env pr p n gs)[h]? = some b) :
    ∃ body, b = [Cmd.NextPage (n + h)] ++ body ++ [Cmd.Finish (n + h)]
      ∧ ∀ c ∈ body, on_page (n + h) c = true := by
  induction gs generalizing p n h with
  | nil => simp [page_blocks] at hb
  | cons g gs ih =>
    have hfront : ∀ q m, ∃ body, front_page env pr g q m
        = [Cmd.NextPage m] ++ body ++ [Cmd.Finish m] ∧ ∀ c ∈ body, on_page m c = true :=
      fun q m => ⟨_, rfl, on_page_grid_loop pr m _
        (fun y x st => on_page_front_slot env pr g q m y x st)⟩
    have hback : ∀ q m, ∃ body, back_page env pr g q m
        = [Cmd.NextPage m] ++ body ++ [Cmd.Finish m] ∧ ∀ c ∈ body, on_page m c = true :=
      fun q m => ⟨_, rfl, on_page_grid_loop pr m _
        (fun y x st => on_page_back_slot env pr g q m y x st)⟩
    cases hbs : pr.m_Data.m_BacksideEnabled
    · rw [page_blocks_cons_front env pr g gs p n hbs] at hb
      cases h with
      | zero =>
        simp at hb
        subst hb
        exact hfront p n
      | succ k =>
        simp at hb
        have := ih (p + 1) (n + 1) k hb
        have e : n + 1 + k = n + (k + 1) := by omega
        rw [e] at this
        exact this
    · rw [page_blocks_cons_back env pr g gs p n hbs] at hb
      cases h with
      | zero =>
        simp at hb
        subst hb
        exact hfront p n
      | succ k =>
        cases k with
        | zero =>
          simp at hb
          subst hb
          exact hback p (n + 1)
        | succ k =>
          simp at hb
          have := ih (p + 1) (n + 2) k hb
          have e : n + 2 + k = n + (k + 1 + 1) := by omega
          rw [e] at this
          exact this

/-- Where the blocks of the page with index `k` are. -/
theorem page_blocks_at (env : Env Rot) (pr : Project) (gs : List Grid) (p n k : Nat)
    (g : Grid) (hg : gs[k]? = some g) :
    (pr.m_Data.m_BacksideEnabled = true →
        (page_blocks env pr p n gs)[2 * k]? = some (front_page env pr g (p + k) (n + 2 * k))
        ∧ (page_blocks env pr p n gs)[2 * k + 1]?
            = some (back_page env pr g (p + k) (n + 2 * k + 1)))
    ∧ (pr.m_Data.m_BacksideEnabled = false →
        (page_blocks env pr p n gs)[k]? = some (front_page env pr g (p + k) (n + k))) := by
  induction gs generalizing p n k with
  | nil => simp at hg
  | cons g0 gs ih =>
    constructor
    · intro hbs
      rw [page_blocks_cons_back env pr g0 gs p n hbs]
      cases k with
      | zero =>
        simp at hg
        subst hg
        simp
      | succ k =>
        simp at hg
        have h1 := (ih (p + 1) (n + 2) k hg).1 hbs
        have e1 : 2 * (k + 1) = 2 * k + 1 + 1 := by omega
        have e2 : p + 1 + k = p + (k + 1) := by omega
        have e3 : n + 2 + 2 * k = n + 2 * (k + 1) := by omega
        rw [e2, e3] at h1
        rw [e1]
        simpa using h1
    · intro hbs
      rw [page_blocks_cons_front env pr g0 gs p n hbs]
      cases k with
      | zero =>
        simp at hg
        subst hg
        simp
      | succ k =>
        simp at hg
        have h1 := (ih (p + 1) (n + 1) k hg).2 hbs
        have e2 : p + 1 + k = p + (k + 1) := by omega
        have e3 : n + 1 + k = n + (k + 1) := by omega
        rw [e2, e3] at h1
        simpa using h1

theorem nextPagesOf_append (l m : List (Cmd Rot)) :
    nextPagesOf (l ++ m) = nextPagesOf l ++ nextPagesOf m := by
  simp [nextPagesOf]

theorem finishesOf_append (l m : List (Cmd Rot)) :
    finishesOf (l ++ m) = finishesOf l ++ finishesOf m := by
  simp [finishesOf]

theorem writesOf_append (l m : List (Cmd Rot)) :
    writesOf (l ++ m) = writesOf l ++ writesOf m := by
  simp [writesOf]

/-- Commands on a page request no page, finish none and write nothing. -/
theorem on_page_projections (h : Nat) (body : List (Cmd Rot))
    (hbody : ∀ c ∈ body, on_page h c = true) :
    nextPagesOf body = [] ∧ finishesOf body = [] ∧ writesOf body = [] := by
  unfold nextPagesOf finishesOf writesOf
  simp only [List.filterMap_eq_nil_iff]
  refine ⟨?_, ?_, ?_⟩ <;>
  · intro c hc
    have := hbody c hc
    cases c <;> simp [on_page] at this ⊢

/-- A block requests its page once, finishes it once and writes nothing. -/
theorem block_projections (h : Nat) (body : List (Cmd Rot))
    (hbody : ∀ c ∈ body, on_page h c = true) :
    nextPagesOf ([Cmd.NextPage h] ++ body ++ [Cmd.Finish h]) = [h]
      ∧ finishesOf ([Cmd.NextPage h] ++ body ++ [Cmd.Finish h]) = [h]
      ∧ writesOf ([Cmd.NextPage h] ++ body ++ [Cmd.Finish h]) = [] := by
  obtain ⟨h1, h2, h3⟩ := on_page_projections h body hbody
  have a1 : nextPagesOf [(Cmd.NextPage h : Cmd Rot)] = [h] := rfl
  have a2 : nextPagesOf [(Cmd.Finish h : Cmd Rot)] = [] := rfl
  have b1 : finishesOf [(Cmd.NextPage h : Cmd Rot)] = [] := rfl
  have b2 : finishesOf [(Cmd.Finish h : Cmd Rot)] = [h] := rfl
  have c1 : writesOf [(Cmd.NextPage h : Cmd Rot)] = [] := rfl
  have c2 : writesOf [(Cmd.Finish h : Cmd Rot)] = [] := rfl
  refine ⟨?_, ?_, ?_⟩
  · rw [nextPagesOf_append, nextPagesOf_append, h1, a1, a2]; rfl
  · rw [finishesOf_append, finishesOf_append, h2, b1, b2]; rfl
  · rw [writesOf_append, writesOf_append, h3, c1, c2]; rfl

/-- A projection that gives, for the `k`-th of a list of blocks, the handle `n + k`,
gives the handles `n, n + 1, ...` for the blocks one after the other. -/
theorem flatten_handles (π : List (Cmd Rot) → List Nat) (hnil : π [] = [])
    (happ : ∀ a b, π (a ++ b) = π a ++ π b) (bs : List (List (Cmd Rot))) (n : Nat)
    (h : ∀ k b, bs[k]? = some b → π b = [n + k]) :
    π bs.flatten = List.range' n bs.length := by
  induction bs generalizing n with
  | nil => simpa using hnil
  | cons b bs ih =>
    rw [List.flatten_cons, happ, h 0 b (by simp), List.length_cons, List.range'_succ]
    rw [ih (n + 1) (fun k c hk => by
      have := h (k + 1) c (by simpa using hk)
      rw [this]
      congr 1
      omega)]
    rfl

theorem flatten_no_write (bs : List (List (Cmd Rot)))
    (h : ∀ b ∈ bs, writesOf b = []) : writesOf bs.flatten = [] := by
  induction bs with
  | nil => rfl
  | cons b bs ih =>
    rw [List.flatten_cons, writesOf_append, h b (List.mem_cons_self _ _),
      ih (fun c hc => h c (List.mem_cons_of_mem _ hc))]
    rfl

theorem foldl_commute {α σ : Type} (φ : σ → σ) (step step' : σ → α → σ)
    (h : ∀ st a, step' (φ st) a = φ (step st a)) (l : List α) (st : σ) :
    l.foldl step' (φ st) = φ (l.foldl step st) := by
  induction l generalizing st with
  | nil => rfl
  | cons a l ih => rw [List.foldl_cons, List.foldl_cons, h, ih]

/-- Without the file `f`, `draw_image` issues what it issues with it, less the image of
`f`. -/
theorem draw_image_missing (env : Env Rot) (pr : Project) (f : String) (page : Nat)
    (image : GridImage) (x y : Nat) (dx dy : ℚ) (b : Bool) :
    draw_image (with_missing env f) pr page image x y dx dy b
      = (draw_image env pr page image x y dx dy b).filter (not_image_of f) := by
  have hpath : img_path (with_missing env f) image = img_path env image := rfl
  have hdata : image_data (with_missing env f) pr image x y dx dy b
      = image_data env pr image x y dx dy b := rfl
  have hp : (image_data env pr image x y dx dy b).m_Path = img_path env image := rfl
  unfold draw_image
  rw [hpath, hdata]
  simp only [with_missing]
  by_cases hf : img_path env image = f
  · subst hf
    rcases Bool.eq_false_or_eq_true (env.fsExists (img_path env image)) with he | he <;>
      simp [he, not_image_of, hp]
  · rcases Bool.eq_false_or_eq_true (env.fsExists (img_path env image)) with he | he <;>
      simp [hf, he, not_image_of, hp]

theorem draw_guides_keep (pr : Project) (f : String) (page x y : Nat) :
    (draw_guides pr page x y : List (Cmd Rot)).filter (not_image_of f)
      = draw_guides pr page x y := by
  rw [List.filter_eq_self]
  intro c hc
  rcases draw_guides_cases pr page x y c hc with ⟨_, h⟩ | ⟨_, h⟩ <;> subst h <;> rfl

theorem front_slot_missing (env : Env Rot) (pr : Project) (f : String) (g : Grid)
    (p page y x : Nat) (st : Nat × List (Cmd Rot)) :
    front_slot (with_missing env f) pr g p page y x (drop_images f st)
      = drop_images f (front_slot env pr g p page y x st) := by
  unfold front_slot drop_images
  cases hg : g y x with
  | none => rfl
  | some card =>
    have hlog : ∀ (a : String) (i j : Nat) (n : String),
        [(Cmd.LogInfo a i j n : Cmd Rot)].filter (not_image_of f) = [Cmd.LogInfo a i j n] :=
      fun _ _ _ _ => rfl
    simp only [List.filter_append, draw_image_missing, hlog]
    congr 2
    split
    · rw [draw_guides_keep]
    · rfl

theorem back_slot_missing (env : Env Rot) (pr : Project) (f : String) (g : Grid)
    (p page y x : Nat) (st : Nat × List (Cmd Rot)) :
    back_slot_body (with_missing env f) pr g p page y x (drop_images f st)
      = drop_images f (back_slot_body env pr g p page y x st) := by
  unfold back_slot_body drop_images
  cases hg : g y x with
  | none => rfl
  | some card =>
    have hlog : ∀ (a : String) (i j : Nat) (n : String),
        [(Cmd.LogInfo a i j n : Cmd Rot)].filter (not_image_of f) = [Cmd.LogInfo a i j n] :=
      fun _ _ _ _ => rfl
    simp only [List.filter_append, draw_image_missing, hlog]
    congr 2
    split
    · rw [draw_guides_keep]
    · rfl

/-- A grid loop whose body commutes with `drop_images`. -/
theorem grid_loop_missing (pr : Project) (f : String)
    (body body' : Nat → Nat → Nat × List (Cmd Rot) → Nat × List (Cmd Rot))
    (h : ∀ y x st, body' y x (drop_images f st) = drop_images f (body y x st)) :
    grid_loop pr body' = (grid_loop pr body).filter (not_image_of f) := by
  rw [grid_loop_cells, grid_loop_cells]
  have := foldl_commute (drop_images f) (fun st (c : Nat × Nat) => body c.1 c.2 st)
    (fun st (c : Nat × Nat) => body' c.1 c.2 st) (fun st a => h a.1 a.2 st) (cells pr) (0, [])
  have h0 : drop_images f ((0, []) : Nat × List (Cmd Rot)) = (0, []) := rfl
  rw [h0] at this
  rw [this]
  rfl

theorem front_page_missing (env : Env Rot) (pr : Project) (f : String) (g : Grid)
    (p page : Nat) :
    front_page (with_missing env f) pr g p page
      = (front_page env pr g p page).filter (not_image_of f) := by
  unfold front_page
  rw [grid_loop_missing pr f (front_slot env pr g p page)
    (front_slot (with_missing env f) pr g p page)
    (fun y x st => front_slot_missing env pr f g p page y x st)]
  simp only [List.filter_append]
  rfl

theorem back_page_missing (env : Env Rot) (pr : Project) (f : String) (g : Grid)
    (p page : Nat) :
    back_page (with_missing env f) pr g p page
      = (back_page env pr g p page).filter (not_image_of f) := by
  unfold back_page
  rw [grid_loop_missing pr f (back_slot_body env pr g p page)
    (back_slot_body (with_missing env f) pr g p page)
    (fun y x st => back_slot_missing env pr f g p page y x st)]
  simp only [List.filter_append]
  rfl

theorem render_pages_missing (env : Env Rot) (pr : Project) (f : String) (gs : List Grid)
    (p : Nat) (st : Nat × List (Cmd Rot)) :
    render_pages (with_missing env f) pr p gs (drop_images f st)
      = drop_images f (render_pages env pr p gs st) := by
  induction gs generalizing p st with
  | nil => rfl
  | cons g gs ih =>
    rw [render_pages, render_pages, ← ih]
    congr 1
    unfold render_page drop_images
    simp only [front_page_missing, back_page_missing]
    split <;> simp only [List.filter_append]

/-- The whole render without the file `f`: the render with it, less the images of `f`. -/
theorem GeneratePdf_missing (env : Env Rot) (pr : Project) (f : String) :
    GeneratePdf (with_missing env f) pr = (GeneratePdf env pr).filter (not_image_of f) := by
  unfold GeneratePdf
  have h := render_pages_missing env pr f env.card_grids 0 (0, [])
  have h0 : drop_images f ((0, []) : Nat × List (Cmd Rot)) = (0, []) := rfl
  rw [h0] at h
  have hg : (with_missing env f).card_grids = env.card_grids := rfl
  rw [hg, h, List.filter_append]
  rfl

/-- A projection that ignores `DrawImage` does not see the images removed. -/
theorem filterMap_not_image_of {β : Type} (π : Cmd Rot → Option β)
    (hπ : ∀ page image, π (Cmd.DrawImage page image) = none) (f : String)
    (l : List (Cmd Rot)) :
    (l.filter (not_image_of f)).filterMap π = l.filterMap π := by
  induction l with
  | nil => rfl
  | cons c l ih =>
    cases c with
    | DrawImage page image =>
      by_cases h : image.m_Path = f
      · simp [List.filter_cons, not_image_of, h, hπ, ih]
      · simp [List.filter_cons, not_image_of, h, hπ, ih]
    | _ => simp [List.filter_cons, not_image_of, List.filterMap_cons, ih]

/-- The commands of `GeneratePdf`: the blocks of the pages, `Write`, the export of the
render options. -/
theorem GeneratePdf_blocks (env : Env Rot) (pr : Project) :
    GeneratePdf env pr
      = (page_blocks env pr 0 0 env.card_grids).flatten
        ++ [Cmd.Write pr.m_Data.m_FileName, Cmd.ExportRenderOptionsToJson] := by
  unfold GeneratePdf
  rw [render_pages_blocks]
  simp

/-- The pages that `GeneratePdf` requests, whatever the geometry. -/
theorem nextPagesOf_GeneratePdf (env : Env Rot) (pr : Project) :
    nextPagesOf (GeneratePdf env pr)
      = List.range (canvas_pages pr env.card_grids.length) := by
  have htail : nextPagesOf
      [Cmd.Write pr.m_Data.m_FileName, (Cmd.ExportRenderOptionsToJson : Cmd Rot)] = [] := rfl
  rw [GeneratePdf_blocks, nextPagesOf_append, htail, List.append_nil,
    flatten_handles nextPagesOf rfl nextPagesOf_append _ 0, page_blocks_length,
    List.range_eq_range']
  intro k b hb
  obtain ⟨body, rfl, hbody⟩ := page_blocks_get env pr env.card_grids 0 0 k b hb
  rw [(block_projections (0 + k) body hbody).1]

/-- The one `Write` of `GeneratePdf`, whatever the geometry. -/
theorem writesOf_GeneratePdf (env : Env Rot) (pr : Project) :
    writesOf (GeneratePdf env pr) = [pr.m_Data.m_FileName] := by
  have htail : writesOf
      [Cmd.Write pr.m_Data.m_FileName, (Cmd.ExportRenderOptionsToJson : Cmd Rot)]
        = [pr.m_Data.m_FileName] := rfl
  rw [GeneratePdf_blocks, writesOf_append, htail, flatten_no_write, List.nil_append]
  intro b hb
  obtain ⟨k, hk⟩ := List.getElem?_of_mem hb
  obtain ⟨body, rfl, hbody⟩ := page_blocks_get env pr env.card_grids 0 0 k b hk
  exact (block_projections (0 + k) body hbody).2.2

/-- The front image of an occupied slot whose file exists is among the commands of
`GeneratePdf`. -/
theorem front_image_in_GeneratePdf (env : Env Rot) (pr : Project) (k : Nat) (g : Grid)
    (x y : Nat) (card : GridImage) (hg : env.card_grids[k]? = some g)
    (hx : x < columns pr) (hy : y < rows pr) (hcard : g y x = some card)
    (hfile : env.fsExists (img_path env card) = true) :
    ∃ h, Cmd.DrawImage h (image_data env pr card x y 0 0 false) ∈ GeneratePdf env pr := by
  obtain ⟨h, hh⟩ := render_pages_front env pr env.card_grids 0 (0, []) k g hg
  refine ⟨h, ?_⟩
  unfold GeneratePdf
  apply List.mem_append_left
  apply hh
  apply mem_front_page env pr g (0 + k) h y x hy hx
  simp [front_slot_draws, hcard, draw_image, hfile]

end Lemmas

/-! ## Placement of the front images -/

section Front

variable {Rot : Type}

/-- C1: for an occupied front slot at column `x < columns` and row `y < rows`, the
image that `draw_image` emits has origin `x = margin.x + x * (card_width + spacing.x)`,
`y = page_height - margin.y - (y + 1) * card_height - y * spacing.y` and the size of
the card with bleed; it is the one command of the call, it is issued on the front
page, and so by `GeneratePdf` for every page that has this grid. -/
theorem front_image_origin (env : Env Rot) (pr : Project) (g : Grid) (p page x y : Nat)
    (card : GridImage) (hx : x < columns pr) (hy : y < rows pr) (hrows : rows pr < SIZE_MOD)
    (hcard : g y x = some card) (hfile : env.fsExists (img_path env card) = true) :
    image_data env pr card x y 0 0 false
      = { m_Path := img_path env card
          m_Pos :=
            { x := pr.ComputeMargins.x
                + (x : ℚ) * (pr.CardSizeWithBleed.x + pr.m_Data.m_Spacing.x)
              y := pr.ComputePageSize.y - pr.ComputeMargins.y
                - ((y : ℚ) + 1) * pr.CardSizeWithBleed.y - (y : ℚ) * pr.m_Data.m_Spacing.y }
          m_Size := { x := pr.CardSizeWithBleed.x, y := pr.CardSizeWithBleed.y }
          m_Rotation := env.GetCardRotation false card.m_BacksideShortEdge }
    ∧ draw_image env pr page card x y 0 0 false
      = [Cmd.DrawImage page (image_data env pr card x y 0 0 false)]
    ∧ Cmd.DrawImage page (image_data env pr card x y 0 0 false) ∈ front_page env pr g p page
    ∧ ∀ k : Nat, env.card_grids[k]? = some g →
        ∃ h, Cmd.DrawImage h (image_data env pr card x y 0 0 false) ∈ GeneratePdf env pr := by
  have hu : uadd y 1 = y + 1 := uadd_of_lt (by omega)
  have hdraw : ∀ h, draw_image env pr h card x y 0 0 false
      = [Cmd.DrawImage h (image_data env pr card x y 0 0 false)] := by
    intro h
    simp [draw_image, hfile]
  have hmem : ∀ q h, Cmd.DrawImage h (image_data env pr card x y 0 0 false)
      ∈ front_page env pr g q h := by
    intro q h
    apply mem_front_page env pr g q h y x hy hx
    simp [front_slot_draws, hcard, hdraw]
  refine ⟨?_, hdraw page, hmem p page, ?_⟩
  · simp [image_data, hu, start_x, start_y, page_height, card_width, card_height, spacing]
  · intro k hk
    obtain ⟨h, hh⟩ := render_pages_front env pr env.card_grids 0 (0, []) k g hk
    refine ⟨h, ?_⟩
    unfold GeneratePdf
    apply List.mem_append_left
    apply hh
    rw [Nat.zero_add]
    exact hmem k h

/-- An instance at the example project: the card of cell
`(0, 0)` is drawn at `(5, 173)`. -/
theorem front_image_origin_witness :
    (0 < columns exProject ∧ 0 < rows exProject ∧ rows exProject < SIZE_MOD
      ∧ exGrid 0 0 = some exCard ∧ exEnv.fsExists (img_path exEnv exCard) = true)
    ∧ (image_data exEnv exProject exCard 0 0 0 0 false).m_Pos = { x := 5, y := 173 }
    ∧ Cmd.DrawImage 0 (image_data exEnv exProject exCard 0 0 0 0 false)
        ∈ front_page exEnv exProject exGrid 0 0 := by
  have h := front_image_origin exEnv exProject exGrid 0 0 0 0 exCard (by decide) (by decide)
    (by decide) rfl rfl
  refine ⟨⟨by decide, by decide, by decide, rfl, rfl⟩, ?_, h.2.2.1⟩
  rw [h.1]
  norm_num [exProject, exData]

/-- C2: with a positive card size (with bleed) and non-negative spacing, two distinct
slots of the grid of a page get front images of different origin. -/
theorem front_image_injective (env : Env Rot) (pr : Project) (page x1 y1 x2 y2 : Nat)
    (c1 c2 : GridImage)
    (hw : 0 < card_width pr) (hh : 0 < card_height pr)
    (hsx : 0 ≤ (spacing pr).x) (hsy : 0 ≤ (spacing pr).y)
    (hrows : rows pr < SIZE_MOD) (hy1 : y1 < rows pr) (hy2 : y2 < rows pr)
    (hne : (x1, y1) ≠ (x2, y2))
    (hf1 : env.fsExists (img_path env c1) = true)
    (hf2 : env.fsExists (img_path env c2) = true) :
    ∃ d1 d2 : ImageData Rot,
      draw_image env pr page c1 x1 y1 0 0 false = [Cmd.DrawImage page d1]
      ∧ draw_image env pr page c2 x2 y2 0 0 false = [Cmd.DrawImage page d2]
      ∧ d1.m_Pos ≠ d2.m_Pos := by
  refine ⟨image_data env pr c1 x1 y1 0 0 false, image_data env pr c2 x2 y2 0 0 false,
    by simp [draw_image, hf1], by simp [draw_image, hf2], ?_⟩
  have hu1 : uadd y1 1 = y1 + 1 := uadd_of_lt (by omega)
  have hu2 : uadd y2 1 = y2 + 1 := uadd_of_lt (by omega)
  intro heq
  simp only [image_data, hu1, hu2, Size.mk.injEq, Bool.false_eq_true, if_false] at heq
  obtain ⟨ex, ey⟩ := heq
  apply hne
  have hx : (x1 : ℚ) = x2 := by
    have h0 : ((x1 : ℚ) - x2) * (card_width pr + (spacing pr).x) = 0 := by linarith
    rcases mul_eq_zero.mp h0 with h | h
    · linarith
    · linarith
  have hy : (y1 : ℚ) = y2 := by
    have h0 : ((y1 : ℚ) - y2) * (card_height pr + (spacing pr).y) = 0 := by
      push_cast at ey
      linarith
    rcases mul_eq_zero.mp h0 with h | h
    · linarith
    · linarith
  rw [Nat.cast_inj.mp hx, Nat.cast_inj.mp hy]

/-- An instance at the example project, for the cells
`(0, 0)` and `(1, 0)`. -/
theorem front_image_injective_witness :
    (0 < card_width exProject ∧ 0 < card_height exProject
      ∧ 0 ≤ (spacing exProject).x ∧ 0 ≤ (spacing exProject).y
      ∧ rows exProject < SIZE_MOD ∧ ((0, 0) : Nat × Nat) ≠ (1, 0))
    ∧ ∃ d1 d2 : ImageData Nat,
      draw_image exEnv exProject 0 exCard 0 0 0 0 false = [Cmd.DrawImage 0 d1]
      ∧ draw_image exEnv exProject 0 exCard 1 0 0 0 false = [Cmd.DrawImage 0 d2]
      ∧ d1.m_Pos ≠ d2.m_Pos := by
  have hw : 0 < card_width exProject := by norm_num [card_width, exProject]
  have hh : 0 < card_height exProject := by norm_num [card_height, exProject]
  have hsx : 0 ≤ (spacing exProject).x := by norm_num [spacing, exProject, exData]
  have hsy : 0 ≤ (spacing exProject).y := by norm_num [spacing, exProject, exData]
  exact ⟨⟨hw, hh, hsx, hsy, by decide, by decide⟩,
    front_image_injective exEnv exProject 0 0 0 1 0 exCard exCard hw hh hsx hsy
      (by decide) (by decide) (by decide) (by decide) rfl rfl⟩

end Front

/-! ## The backside mapper -/

section Back

variable {Rot : Type}

/-- C3: for a front slot `(x, y)` inside the grid, the back slot is
`(columns - 1 - x, y)` for a flip on the left edge and `(x, rows - 1 - y)` for a flip
on the top edge, and it is inside the grid again: the `size_t` subtraction does not
wrap. -/
theorem back_slot_mirror (pr : Project) (x y : Nat)
    (hc : columns pr < SIZE_MOD) (hr : rows pr < SIZE_MOD)
    (hx : x < columns pr) (hy : y < rows pr) :
    (pr.m_Data.m_FlipOn = FlipPageOn.LeftEdge →
        back_slot pr (x, y) = (columns pr - 1 - x, y))
    ∧ (pr.m_Data.m_FlipOn = FlipPageOn.TopEdge →
        back_slot pr (x, y) = (x, rows pr - 1 - y))
    ∧ (back_slot pr (x, y)).1 < columns pr ∧ (back_slot pr (x, y)).2 < rows pr := by
  have hbx := usub_mirror hc hx
  have hby := usub_mirror hr hy
  cases hf : pr.m_Data.m_FlipOn with
  | LeftEdge =>
    simp only [back_slot, back_bx, back_by, hf, hbx]
    refine ⟨fun _ => by simp, fun h => by simp at h, ?_, ?_⟩
    · simp; omega
    · simpa using hy
  | TopEdge =>
    simp only [back_slot, back_bx, back_by, hf, hby]
    refine ⟨fun h => by simp at h, fun _ => by simp, ?_, ?_⟩
    · simpa using hx
    · simp; omega

/-- An instance in a (2, 2) grid: the front slot `(0, 0)` goes
to `(1, 0)` for a flip on the left edge and to `(0, 1)` for a flip on the top edge. -/
theorem back_slot_mirror_witness :
    (columns exProject = 2 ∧ rows exProject = 2
      ∧ columns exProject < SIZE_MOD ∧ rows exProject < SIZE_MOD
      ∧ exProject.m_Data.m_FlipOn = FlipPageOn.LeftEdge
      ∧ exProjectTop.m_Data.m_FlipOn = FlipPageOn.TopEdge)
    ∧ back_slot exProject (0, 0) = (1, 0)
    ∧ back_slot exProjectTop (0, 0) = (0, 1) :=
  ⟨⟨rfl, rfl, by decide, by decide, rfl, rfl⟩,
    (back_slot_mirror exProject 0 0 (by decide) (by decide) (by decide) (by decide)).1 rfl,
    (back_slot_mirror exProjectTop 0 0 (by decide) (by decide) (by decide) (by decide)).2.1
      rfl⟩

/-- C4: for a fixed flip axis the map from front slot to back slot is a bijection of the
cells of the grid onto themselves, so it is injective on the occupied cells; applying
it twice gives the original cell; the backside loop does nothing at an empty cell and
at an occupied cell it draws exactly one image, the one of the back slot. -/
theorem back_slot_bijection (env : Env Rot) (pr : Project) (g : Grid) (p page : Nat)
    (hc : columns pr < SIZE_MOD) (hr : rows pr < SIZE_MOD) :
    Set.BijOn (back_slot pr) {s | s.1 < columns pr ∧ s.2 < rows pr}
      {s | s.1 < columns pr ∧ s.2 < rows pr}
    ∧ Set.InjOn (back_slot pr)
        {s | s.1 < columns pr ∧ s.2 < rows pr ∧ (g s.2 s.1).isSome = true}
    ∧ (∀ s : Nat × Nat, s.1 < columns pr → s.2 < rows pr →
        back_slot pr (back_slot pr s) = s)
    ∧ (∀ (x y : Nat) (st : Nat × List (Cmd Rot)), g y x = none →
        back_slot_body env pr g p page y x st = st)
    ∧ (∀ (x y : Nat) (card : GridImage) (st : Nat × List (Cmd Rot)), g y x = some card →
        env.fsExists (img_path env (backside_card pr card)) = true →
        imagesOf (back_slot_body env pr g p page y x st).2
          = imagesOf st.2 ++ [image_data env pr (backside_card pr card)
              (back_slot pr (x, y)).1 (back_slot pr (x, y)).2
              pr.m_Data.m_BacksideOffset 0 true]) := by
  have htwice : ∀ s : Nat × Nat, s.1 < columns pr → s.2 < rows pr →
      back_slot pr (back_slot pr s) = s :=
    fun s hx hy => back_slot_twice pr s hc hr hx hy
  have hinj : Set.InjOn (back_slot pr) {s | s.1 < columns pr ∧ s.2 < rows pr} := by
    intro a ha b hb hab
    rw [← htwice a ha.1 ha.2, ← htwice b hb.1 hb.2, hab]
  refine ⟨⟨?_, hinj, ?_⟩, ?_, htwice, ?_, ?_⟩
  · intro s hs
    exact back_slot_inside pr s hc hr hs.1 hs.2
  · intro s hs
    exact ⟨back_slot pr s, back_slot_inside pr s hc hr hs.1 hs.2, htwice s hs.1 hs.2⟩
  · intro a ha b hb hab
    exact hinj ⟨ha.1, ha.2.1⟩ ⟨hb.1, hb.2.1⟩ hab
  · intro x y st hg
    simp [back_slot_body, hg]
  · intro x y card st hg hfile
    have hlog : ∀ (f : String) (a b : Nat) (n : String),
        imagesOf [(Cmd.LogInfo f a b n : Cmd Rot)] = [] := fun _ _ _ _ => rfl
    have himg : ∀ d : ImageData Rot, imagesOf [(Cmd.DrawImage page d : Cmd Rot)] = [d] :=
      fun _ => rfl
    have hnil : imagesOf ([] : List (Cmd Rot)) = [] := rfl
    simp only [back_slot_body, hg, imagesOf_append, hlog, draw_image, hfile, if_true, himg,
      back_slot, List.append_nil]
    split
    · rw [imagesOf_draw_guides, List.append_nil]
    · rw [hnil, List.append_nil]

/-- An instance at the example project: the one card of the
partial page, in cell `(0, 0)`, gets one backside image, at the back slot `(1, 0)`,
and mirroring that slot again gives `(0, 0)`. -/
theorem back_slot_bijection_witness :
    (columns exProject < SIZE_MOD ∧ rows exProject < SIZE_MOD
      ∧ exGrid 0 0 = some exCard ∧ exGrid 0 1 = none)
    ∧ back_slot exProject (0, 0) = (1, 0)
    ∧ back_slot exProject (back_slot exProject (0, 0)) = (0, 0)
    ∧ back_slot_body exEnv exProject exGrid 0 1 0 1 (0, []) = (0, [])
    ∧ imagesOf (back_slot_body exEnv exProject exGrid 0 1 0 0 (0, [])).2
        = [image_data exEnv exProject (backside_card exProject exCard) 1 0 (1 / 2) 0 true] := by
  have h := back_slot_bijection exEnv exProject exGrid 0 1 (by decide) (by decide)
  have hs : back_slot exProject (0, 0) = (1, 0) := by decide
  refine ⟨⟨by decide, by decide, rfl, rfl⟩, hs, ?_, h.2.2.2.1 1 0 (0, []) rfl, ?_⟩
  · exact h.2.2.1 (0, 0) (by decide) (by decide)
  · have h5 := h.2.2.2.2 0 0 exCard (0, []) rfl rfl
    rw [hs] at h5
    exact h5

end Back

/-! ## The guide generator -/

section Guides

variable {Rot : Type}

/-- C5, as the code has it: when two cells emit a cross for the same grid intersection,
the two anchors are the same exactly when, on each axis on which the cells differ,
`spacing + 2 * (bleed - guides_offset)` is zero; each cell anchors its crosses at its own
corners. -/
theorem shared_corner_anchor (pr : Project) (x y x' y' : Nat)
    (c c' : Nat × Nat × CrossSegment × ℚ × ℚ)
    (hcol : columns pr < SIZE_MOD) (hrow : rows pr < SIZE_MOD)
    (hx : x < columns pr) (hy : y < rows pr) (hx' : x' < columns pr) (hy' : y' < rows pr)
    (hc : c ∈ guide_calls pr x y) (hc' : c' ∈ guide_calls pr x' y')
    (hi : c.1 = c'.1) (hj : c.2.1 = c'.2.1) :
    cross_pos pr c.1 c.2.1 c.2.2.2.1 c.2.2.2.2 = cross_pos pr c'.1 c'.2.1 c'.2.2.2.1 c'.2.2.2.2
      ↔ (x = x' ∨ (spacing pr).x + 2 * (pr.m_Data.m_BleedEdge - pr.m_Data.m_GuidesOffset) = 0)
        ∧ (y = y' ∨ (spacing pr).y + 2 * (pr.m_Data.m_BleedEdge - pr.m_Data.m_GuidesOffset) = 0) := by
  have hoff : offset pr = pr.m_Data.m_BleedEdge - pr.m_Data.m_GuidesOffset := rfl
  have sx := guide_calls_column pr x y c hc
  have sx' := guide_calls_column pr x' y' c' hc'
  have sy := guide_calls_row pr x y c hc
  have sy' := guide_calls_row pr x' y' c' hc'
  rw [uadd_of_lt (show x + 1 < SIZE_MOD by omega)] at sx
  rw [uadd_of_lt (show x' + 1 < SIZE_MOD by omega)] at sx'
  rw [uadd_of_lt (show y + 0 < SIZE_MOD by omega),
    uadd_of_lt (show y + 1 < SIZE_MOD by omega)] at sy
  rw [uadd_of_lt (show y' + 0 < SIZE_MOD by omega),
    uadd_of_lt (show y' + 1 < SIZE_MOD by omega)] at sy'
  rw [← hi, ← hj]
  simp only [cross_pos, Size.mk.injEq, add_right_inj]
  apply and_congr
  · rcases sx with ⟨a, b⟩ | ⟨a, b⟩ <;> rcases sx' with ⟨a', b'⟩ | ⟨a', b'⟩ <;>
      rw [b, b'] <;> constructor
    all_goals first
      | (intro h; first | (left; omega) | (right; linarith))
      | (rintro (h | h) <;> linarith)
  · rcases sy with ⟨a, b⟩ | ⟨a, b⟩ <;> rcases sy' with ⟨a', b'⟩ | ⟨a', b'⟩ <;>
      rw [b, b'] <;> constructor
    all_goals first
      | (intro h; first | (left; omega) | (right; linarith))
      | (rintro (h | h) <;> linarith)

/-- An instance at the example project, for the cells
`(0, 0)` and `(1, 0)` and the grid intersection `(1, 0)` they share: the anchors
differ, and indeed `spacing.x + 2 * (bleed - guides_offset) = 5`. -/
theorem shared_corner_anchor_witness :
    (columns exProject < SIZE_MOD ∧ rows exProject < SIZE_MOD
      ∧ (1, 0, CrossSegment.TopRight, (-3 : ℚ), (-2 : ℚ)) ∈ guide_calls exProject 0 0
      ∧ (1, 0, CrossSegment.TopLeft, (2 : ℚ), (-2 : ℚ)) ∈ guide_calls exProject 1 0)
    ∧ (cross_pos exProject 1 0 (-3) (-2) = cross_pos exProject 1 0 2 (-2)
      ↔ (0 = 1 ∨ (spacing exProject).x
            + 2 * (exProject.m_Data.m_BleedEdge - exProject.m_Data.m_GuidesOffset) = 0)
        ∧ (0 = 0 ∨ (spacing exProject).y
            + 2 * (exProject.m_Data.m_BleedEdge - exProject.m_Data.m_GuidesOffset) = 0)) := by
  have h1 : (1, 0, CrossSegment.TopRight, (-3 : ℚ), (-2 : ℚ)) ∈ guide_calls exProject 0 0 := by
    norm_num [guide_calls, uadd, SIZE_MOD, offset, spacing, exProject, exData]
  have h2 : (1, 0, CrossSegment.TopLeft, (2 : ℚ), (-2 : ℚ)) ∈ guide_calls exProject 1 0 := by
    norm_num [guide_calls, uadd, SIZE_MOD, offset, spacing, exProject, exData]
  exact ⟨⟨by decide, by decide, h1, h2⟩,
    shared_corner_anchor exProject 0 0 1 0 _ _ (by decide) (by decide) (by decide) (by decide)
      (by decide) (by decide) h1 h2 rfl rfl⟩

/-- C5 fails as stated: in the example project the cells `(0, 0)` and `(1, 0)` both emit
a cross for the grid intersection `(1, 0)`, the first as its top right corner at
`(13, 191)`, the second as its top left corner at `(18, 191)`. -/
theorem shared_corner_counterexample :
    (1, 0, CrossSegment.TopRight, (-3 : ℚ), (-2 : ℚ)) ∈ guide_calls exProject 0 0
    ∧ (1, 0, CrossSegment.TopLeft, (2 : ℚ), (-2 : ℚ)) ∈ guide_calls exProject 1 0
    ∧ (Cmd.DrawDashedCross 0
        { m_Pos := { x := 13, y := 191 }, m_Length := 4, m_Segment := CrossSegment.TopRight }
        (line_style exProject) : Cmd Nat) ∈ draw_guides exProject 0 0 0
    ∧ (Cmd.DrawDashedCross 0
        { m_Pos := { x := 18, y := 191 }, m_Length := 4, m_Segment := CrossSegment.TopLeft }
        (line_style exProject) : Cmd Nat) ∈ draw_guides exProject 0 1 0
    ∧ cross_pos exProject 1 0 (-3) (-2) = { x := 13, y := 191 }
    ∧ cross_pos exProject 1 0 2 (-2) = { x := 18, y := 191 }
    ∧ cross_pos exProject 1 0 (-3) (-2) ≠ cross_pos exProject 1 0 2 (-2) := by
  refine ⟨?_, ?_, ?_, ?_, ?_, ?_, ?_⟩
  · norm_num [guide_calls, uadd, SIZE_MOD, offset, spacing, exProject, exData]
  · norm_num [guide_calls, uadd, SIZE_MOD, offset, spacing, exProject, exData]
  · norm_num [draw_guides, guide_calls, draw_cross_at_grid, cross_pos, uadd, SIZE_MOD, offset,
      spacing, start_x, start_y, page_height, card_width, card_height, columns, rows,
      exProject, exData]
  · norm_num [draw_guides, guide_calls, draw_cross_at_grid, cross_pos, uadd, SIZE_MOD, offset,
      spacing, start_x, start_y, page_height, card_width, card_height, columns, rows,
      exProject, exData]
  · norm_num [cross_pos, spacing, start_x, start_y, page_height, card_width, card_height,
      exProject, exData]
  · norm_num [cross_pos, spacing, start_x, start_y, page_height, card_width, card_height,
      exProject, exData]
  · norm_num [cross_pos, spacing, start_x, start_y, page_height, card_width, card_height,
      exProject, exData]

/-- C6: every extended line of `draw_cross_at_grid` starts at the intersection it was
called for, whose column index is 0 or `columns` or whose row index is 0 or `rows`; the
line is parallel to an axis and ends on a page edge (`x = 0` or `x = page_width` in the
column cases, `y = 0` or `y = page_height` in the row cases).  No line is emitted when
extended guides are off, nor for an intersection inside the grid. -/
theorem extended_lines_on_boundary (pr : Project) (page x y : Nat) (s : CrossSegment)
    (dx dy : ℚ) :
    (∀ (pg : Nat) (l : LineData) (st : DashedLineStyle),
        Cmd.DrawDashedLine pg l st ∈ (draw_cross_at_grid pr page x y s dx dy : List (Cmd Rot)) →
        pr.m_Data.m_ExtendedGuides = true
        ∧ l.m_From = cross_pos pr x y dx dy
        ∧ (((x = 0 ∨ x = columns pr) ∧ l.m_To.y = l.m_From.y
              ∧ (l.m_To.x = 0 ∨ l.m_To.x = page_width pr))
          ∨ ((y = 0 ∨ y = rows pr) ∧ l.m_To.x = l.m_From.x
              ∧ (l.m_To.y = 0 ∨ l.m_To.y = page_height pr))))
    ∧ (pr.m_Data.m_ExtendedGuides = false →
        linesOf (draw_cross_at_grid pr page x y s dx dy : List (Cmd Rot)) = [])
    ∧ (x ≠ 0 → x ≠ columns pr → y ≠ 0 → y ≠ rows pr →
        linesOf (draw_cross_at_grid pr page x y s dx dy : List (Cmd Rot)) = []) := by
  refine ⟨?_, ?_, ?_⟩
  · intro pg l st hmem
    have hl : l ∈ linesOf (draw_cross_at_grid pr page x y s dx dy : List (Cmd Rot)) :=
      (mem_linesOf _ l).mpr ⟨pg, st, hmem⟩
    rw [linesOf_draw_cross_at_grid] at hl
    split at hl
    · rename_i hext
      refine ⟨hext, ?_⟩
      simp only [List.mem_append] at hl
      rcases hl with ((hl | hl) | hl) | hl <;> split at hl <;> simp at hl <;> subst hl
      · rename_i hx; exact ⟨rfl, Or.inl ⟨Or.inl hx, rfl, Or.inl rfl⟩⟩
      · rename_i hx; exact ⟨rfl, Or.inl ⟨Or.inr hx, rfl, Or.inr rfl⟩⟩
      · rename_i hy; exact ⟨rfl, Or.inr ⟨Or.inr hy, rfl, Or.inl rfl⟩⟩
      · rename_i hy; exact ⟨rfl, Or.inr ⟨Or.inl hy, rfl, Or.inr rfl⟩⟩
    · simp at hl
  · intro hext
    rw [linesOf_draw_cross_at_grid]
    simp [hext]
  · intro h1 h2 h3 h4
    rw [linesOf_draw_cross_at_grid]
    simp [h1, h2, h3, h4]

/-- An instance at the example project, for the
intersection of column 0 and row 1: the line runs from `(5, 171)` to `(0, 171)`. -/
theorem extended_lines_on_boundary_witness :
    (Cmd.DrawDashedLine 0
        { m_From := { x := 5, y := 171 }, m_To := { x := 0, y := 171 } }
        (line_style exProject) : Cmd Nat)
      ∈ draw_cross_at_grid exProject 0 0 1 CrossSegment.TopLeft 0 0
    ∧ exProject.m_Data.m_ExtendedGuides = true
    ∧ ({ x := 5, y := 171 } : Position) = cross_pos exProject 0 1 0 0
    ∧ linesOf (draw_cross_at_grid exProject 0 1 1 CrossSegment.TopLeft 0 0 : List (Cmd Nat))
        = [] := by
  have hmem : (Cmd.DrawDashedLine 0
        { m_From := { x := 5, y := 171 }, m_To := { x := 0, y := 171 } }
        (line_style exProject) : Cmd Nat)
      ∈ draw_cross_at_grid exProject 0 0 1 CrossSegment.TopLeft 0 0 := by
    norm_num [draw_cross_at_grid, cross_pos, spacing, start_x, start_y, page_height,
      card_width, card_height, columns, rows, exProject, exData]
  have h := (extended_lines_on_boundary exProject 0 0 1 CrossSegment.TopLeft 0 0).1 0 _ _ hmem
  have h3 := (@extended_lines_on_boundary Nat exProject 0 1 1 CrossSegment.TopLeft 0 0).2.2
    (by decide) (by decide) (by decide) (by decide)
  exact ⟨hmem, h.1, h.2.1, h3⟩

/-- C7, as the code has it: with extended guides on, the line of an intersection runs to
`x = 0` for column index 0, to `x = page_width` for column index `columns`, to
`y = page_height` for row index 0 (the top row boundary) and to `y = 0` for row index
`rows` (the bottom row boundary); there is no other line. -/
theorem extended_line_edges (pr : Project) (page x y : Nat) (s : CrossSegment) (dx dy : ℚ)
    (hext : pr.m_Data.m_ExtendedGuides = true) :
    (x = 0 → (Cmd.DrawDashedLine page
        { m_From := cross_pos pr x y dx dy
          m_To := { x := 0, y := (cross_pos pr x y dx dy).y } } (line_style pr) : Cmd Rot)
        ∈ draw_cross_at_grid pr page x y s dx dy)
    ∧ (x = columns pr → (Cmd.DrawDashedLine page
        { m_From := cross_pos pr x y dx dy
          m_To := { x := page_width pr, y := (cross_pos pr x y dx dy).y } } (line_style pr)
          : Cmd Rot)
        ∈ draw_cross_at_grid pr page x y s dx dy)
    ∧ (y = 0 → (Cmd.DrawDashedLine page
        { m_From := cross_pos pr x y dx dy
          m_To := { x := (cross_pos pr x y dx dy).x, y := page_height pr } } (line_style pr)
          : Cmd Rot)
        ∈ draw_cross_at_grid pr page x y s dx dy)
    ∧ (y = rows pr → (Cmd.DrawDashedLine page
        { m_From := cross_pos pr x y dx dy
          m_To := { x := (cross_pos pr x y dx dy).x, y := 0 } } (line_style pr) : Cmd Rot)
        ∈ draw_cross_at_grid pr page x y s dx dy)
    ∧ ∀ l ∈ linesOf (draw_cross_at_grid pr page x y s dx dy : List (Cmd Rot)),
        l.m_From = cross_pos pr x y dx dy
        ∧ ((x = 0 ∧ l.m_To = { x := 0, y := (cross_pos pr x y dx dy).y })
          ∨ (x = columns pr ∧ l.m_To = { x := page_width pr, y := (cross_pos pr x y dx dy).y })
          ∨ (y = 0 ∧ l.m_To = { x := (cross_pos pr x y dx dy).x, y := page_height pr })
          ∨ (y = rows pr ∧ l.m_To = { x := (cross_pos pr x y dx dy).x, y := 0 })) := by
  refine ⟨?_, ?_, ?_, ?_, ?_⟩
  · intro h
    simp [draw_cross_at_grid, hext, h]
  · intro h
    simp [draw_cross_at_grid, hext, h]
  · intro h
    simp [draw_cross_at_grid, hext, h]
  · intro h
    simp [draw_cross_at_grid, hext, h]
  · intro l hl
    rw [linesOf_draw_cross_at_grid, if_pos hext] at hl
    simp only [List.mem_append] at hl
    rcases hl with ((hl | hl) | hl) | hl <;> split at hl <;> simp at hl <;> subst hl
    · rename_i hx; exact ⟨rfl, Or.inl ⟨hx, rfl⟩⟩
    · rename_i hx; exact ⟨rfl, Or.inr (Or.inl ⟨hx, rfl⟩)⟩
    · rename_i hy; exact ⟨rfl, Or.inr (Or.inr (Or.inr ⟨hy, rfl⟩))⟩
    · rename_i hy; exact ⟨rfl, Or.inr (Or.inr (Or.inl ⟨hy, rfl⟩))⟩

/-- An instance at the example project: the intersection of
column 1 and row 0 gets a line to `y = page_height = 200`. -/
theorem extended_line_edges_witness :
    exProject.m_Data.m_ExtendedGuides = true
    ∧ (Cmd.DrawDashedLine 0
        { m_From := cross_pos exProject 1 0 0 0
          m_To := { x := (cross_pos exProject 1 0 0 0).x, y := page_height exProject } }
        (line_style exProject) : Cmd Nat)
      ∈ draw_cross_at_grid exProject 0 1 0 CrossSegment.TopLeft 0 0
    ∧ page_height exProject = 200 :=
  ⟨rfl, (extended_line_edges exProject 0 1 0 CrossSegment.TopLeft 0 0 rfl).2.2.1 rfl, rfl⟩

/-- C7 fails as stated: in the example project (page height 200, 2 rows) the one line of
the intersection of column 1 and row index 0 ends at `y = 200`, not at `y = 0`, and the
one line of the intersection of column 1 and row index 2 ends at `y = 0`, not at
`y = 200`. -/
theorem extended_line_edges_counterexample :
    exProject.m_Data.m_ExtendedGuides = true
    ∧ rows exProject = 2 ∧ page_height exProject = 200
    ∧ linesOf (draw_cross_at_grid exProject 0 1 0 CrossSegment.TopLeft 0 0 : List (Cmd Nat))
        = [{ m_From := { x := 16, y := 193 }, m_To := { x := 16, y := 200 } }]
    ∧ linesOf (draw_cross_at_grid exProject 0 1 2 CrossSegment.TopLeft 0 0 : List (Cmd Nat))
        = [{ m_From := { x := 16, y := 149 }, m_To := { x := 16, y := 0 } }]
    ∧ (¬ ∃ l ∈ linesOf
          (draw_cross_at_grid exProject 0 1 0 CrossSegment.TopLeft 0 0 : List (Cmd Nat)),
        l.m_To.y = 0)
    ∧ (¬ ∃ l ∈ linesOf
          (draw_cross_at_grid exProject 0 1 2 CrossSegment.TopLeft 0 0 : List (Cmd Nat)),
        l.m_To.y = page_height exProject) := by
  have h0 : linesOf
      (draw_cross_at_grid exProject 0 1 0 CrossSegment.TopLeft 0 0 : List (Cmd Nat))
        = [{ m_From := { x := 16, y := 193 }, m_To := { x := 16, y := 200 } }] := by
    rw [linesOf_draw_cross_at_grid]
    norm_num [cross_pos, spacing, start_x, start_y, page_height, card_width, card_height,
      columns, rows, exProject, exData]
  have h2 : linesOf
      (draw_cross_at_grid exProject 0 1 2 CrossSegment.TopLeft 0 0 : List (Cmd Nat))
        = [{ m_From := { x := 16, y := 149 }, m_To := { x := 16, y := 0 } }] := by
    rw [linesOf_draw_cross_at_grid]
    norm_num [cross_pos, spacing, start_x, start_y, page_height, card_width, card_height,
      columns, rows, exProject, exData]
  refine ⟨rfl, rfl, rfl, h0, h2, ?_, ?_⟩
  · rw [h0]
    norm_num
  · rw [h2]
    norm_num [page_height, exProject]

/-- C8: with guides enabled the front page has crosses for occupied slots only; for a slot
`draw_guides` emits four crosses when corner guides are on and none when they are off,
whatever the extended guides toggle is, and its lines do not depend on the corner guides
toggle; with both toggles off it emits nothing.  A cross has the guide length as arm
length; its segment is `FullCross` when cross guides are on, else `TopRight`,
`BottomRight`, `TopLeft`, `BottomLeft` for the corners `(x + 1, y)`, `(x + 1, y + 1)`,
`(x, y)`, `(x, y + 1)` of the cell. -/
theorem guides_crosses (env : Env Rot) (pr : Project) (g : Grid) (p page : Nat)
    (hen : pr.m_Data.m_EnableGuides = true) :
    crossesOf (front_page env pr g p page)
      = (cells pr).flatMap (fun c =>
          if (g c.1 c.2).isSome then crossesOf (draw_guides pr page c.2 c.1 : List (Cmd Rot))
          else [])
    ∧ (∀ x y : Nat, crossesOf (draw_guides pr page x y : List (Cmd Rot))
        = if pr.m_Data.m_CornerGuides then
            [ { m_Pos := cross_pos pr (uadd x 1) (uadd y 0) (-offset pr - (spacing pr).x)
                  (-offset pr)
                m_Length := pr.m_Data.m_GuidesLength
                m_Segment :=
                  if pr.m_Data.m_CrossGuides then CrossSegment.FullCross
                  else CrossSegment.TopRight },
              { m_Pos := cross_pos pr (uadd x 1) (uadd y 1) (-offset pr - (spacing pr).x)
                  (offset pr + (spacing pr).y)
                m_Length := pr.m_Data.m_GuidesLength
                m_Segment :=
                  if pr.m_Data.m_CrossGuides then CrossSegment.FullCross
                  else CrossSegment.BottomRight },
              { m_Pos := cross_pos pr x (uadd y 0) (offset pr) (-offset pr)
                m_Length := pr.m_Data.m_GuidesLength
                m_Segment :=
                  if pr.m_Data.m_CrossGuides then CrossSegment.FullCross
                  else CrossSegment.TopLeft },
              { m_Pos := cross_pos pr x (uadd y 1) (offset pr) (offset pr + (spacing pr).y)
                m_Length := pr.m_Data.m_GuidesLength
                m_Segment :=
                  if pr.m_Data.m_CrossGuides then CrossSegment.FullCross
                  else CrossSegment.BottomLeft } ]
          else [])
    ∧ (∀ (x y : Nat) (b : Bool),
        crossesOf (draw_guides (with_extended pr b) page x y : List (Cmd Rot))
          = crossesOf (draw_guides pr page x y : List (Cmd Rot)))
    ∧ (∀ (x y : Nat) (b : Bool),
        linesOf (draw_guides (with_corner pr b) page x y : List (Cmd Rot))
          = linesOf (draw_guides pr page x y : List (Cmd Rot)))
    ∧ (∀ x y : Nat, pr.m_Data.m_CornerGuides = false → pr.m_Data.m_ExtendedGuides = false →
        (draw_guides pr page x y : List (Cmd Rot)) = []) := by
  refine ⟨?_, ?_, ?_, ?_, ?_⟩
  · unfold front_page
    have h1 : ∀ n, crossesOf [(Cmd.NextPage n : Cmd Rot)] = [] := fun _ => rfl
    have h2 : ∀ n, crossesOf [(Cmd.Finish n : Cmd Rot)] = [] := fun _ => rfl
    rw [crossesOf_append, crossesOf_append, h1, h2, List.nil_append, List.append_nil]
    rw [grid_loop_proj pr _ crossesOf
      (fun c : Nat × Nat =>
        if (g c.1 c.2).isSome ∧ pr.m_Data.m_EnableGuides = true then
          crossesOf (draw_guides pr page c.2 c.1 : List (Cmd Rot))
        else [])
      rfl (fun y x st => front_slot_crosses env pr g p page y x st)]
    simp [hen]
  · intro x y
    rw [crossesOf_draw_guides]
    rfl
  · intro x y b
    rw [crossesOf_draw_guides, crossesOf_draw_guides]
    rfl
  · intro x y b
    rw [linesOf_draw_guides, linesOf_draw_guides]
    simp only [linesOf_draw_cross_at_grid]
    rfl
  · intro x y h1 h2
    simp [draw_guides, guide_calls, draw_cross_at_grid, h1, h2]

/-- An instance at the example project: the partial page with one
card in cell `(0, 0)` gets the four crosses of that cell and no other. -/
theorem guides_crosses_witness :
    exProject.m_Data.m_EnableGuides = true
    ∧ crossesOf (front_page exEnv exProject exGrid 0 0)
      = [ { m_Pos := { x := 13, y := 191 }, m_Length := 4, m_Segment := CrossSegment.TopRight },
          { m_Pos := { x := 13, y := 175 }, m_Length := 4,
            m_Segment := CrossSegment.BottomRight },
          { m_Pos := { x := 7, y := 191 }, m_Length := 4, m_Segment := CrossSegment.TopLeft },
          { m_Pos := { x := 7, y := 175 }, m_Length := 4,
            m_Segment := CrossSegment.BottomLeft } ] := by
  refine ⟨rfl, ?_⟩
  rw [(guides_crosses exEnv exProject exGrid 0 0 rfl).1]
  have hc : cells exProject = [(0, 0), (0, 1), (1, 0), (1, 1)] := by decide
  rw [hc]
  simp only [List.flatMap_cons, List.flatMap_nil, crossesOf_draw_guides]
  norm_num [exGrid, guide_calls, cross_of_call, cross_pos, uadd, SIZE_MOD, offset, spacing,
    start_x, start_y, page_height, card_width, card_height, exProject, exData]

end Guides

/-! ## The backside page -/

section BackPage

variable {Rot : Type}

/-- C9 fails on the code: the backside loop calls `draw_guides` with the front slot
`(x, y)`, not with the slot `(bx, by)` it draws the image at.  On the partial page with
one card in cell `(0, 0)`, flipped on the left edge, with the grid centred and no
backside offset, the backside image is drawn in slot `(1, 0)` at `(101/2, 101)` with
size `(10, 20)`, and the crosses of the back page are those of slot `(0, 0)`, at
`x = 95/2` and `x = 83/2`, not those of slot `(1, 0)`, at `x = 117/2` and `x = 105/2`. -/
theorem back_guides_unmirrored :
    (exCentred.m_Data.m_BacksideEnabled = true ∧ exCentred.m_Data.m_EnableGuides = true
      ∧ exCentred.m_Data.m_BacksideEnableGuides = true
      ∧ backside_start_x exCentred = start_x exCentred
      ∧ exGrid 0 0 = some exCard ∧ back_slot exCentred (0, 0) = (1, 0))
    ∧ (imagesOf (back_page exEnv exCentred exGrid 0 1)).map (fun d => (d.m_Pos, d.m_Size))
        = [(({ x := 101 / 2, y := 101 } : Position), ({ x := 10, y := 20 } : Size))]
    ∧ crossesOf (back_page exEnv exCentred exGrid 0 1)
        = crossesOf (draw_guides exCentred 1 0 0 : List (Cmd Nat))
    ∧ (crossesOf (back_page exEnv exCentred exGrid 0 1)).map (fun c => c.m_Pos)
        = [{ x := 95 / 2, y := 119 }, { x := 95 / 2, y := 103 },
           { x := 83 / 2, y := 119 }, { x := 83 / 2, y := 103 }]
    ∧ (crossesOf (draw_guides exCentred 1 1 0 : List (Cmd Nat))).map (fun c => c.m_Pos)
        = [{ x := 117 / 2, y := 119 }, { x := 117 / 2, y := 103 },
           { x := 105 / 2, y := 119 }, { x := 105 / 2, y := 103 }] := by
  have hc : cells exCentred = [(0, 0), (0, 1), (1, 0), (1, 1)] := by decide
  have hs : back_slot exCentred (0, 0) = (1, 0) := by decide
  have hbx : back_bx exCentred 0 = 1 := by decide
  have hby : back_by exCentred 0 = 0 := by decide
  have hback : crossesOf (back_page exEnv exCentred exGrid 0 1)
      = crossesOf (draw_guides exCentred 1 0 0 : List (Cmd Nat)) := by
    rw [crossesOf_back_page, hc]
    simp [exGrid, exCentred, exData]
  refine ⟨⟨rfl, rfl, rfl, ?_, rfl, hs⟩, ?_, hback, ?_, ?_⟩
  · norm_num [backside_start_x, start_x, exCentred, exProject]
  · rw [imagesOf_back_page, hc]
    simp only [List.flatMap_cons, List.flatMap_nil, exGrid, hbx, hby]
    norm_num [imagesOf, draw_image, exEnv, image_data, backside_start_x, backside_start_y,
      start_y, page_height, card_width, card_height, spacing, uadd, SIZE_MOD, exCentred,
      exProject, exData]
    rfl
  · rw [hback, crossesOf_draw_guides]
    norm_num [guide_calls, cross_of_call, cross_pos, uadd, SIZE_MOD, offset, spacing,
      start_x, start_y, page_height, card_width, card_height, exCentred, exProject, exData]
  · rw [crossesOf_draw_guides]
    norm_num [guide_calls, cross_of_call, cross_pos, uadd, SIZE_MOD, offset, spacing,
      start_x, start_y, page_height, card_width, card_height, exCentred, exProject, exData]

/-- C10: for an occupied front slot `(x, y)` with back slot `(bx, by)`, the backside image
has origin `x = (max_margin.x - margin.x) + bx * (card_width + spacing.x)
+ backside_offset`, `y = page_height - margin.y - (by + 1) * card_height - by * spacing.y`
and the size of the card with bleed; the y origin is the one a front image has in that
slot.  It is the one command of the `draw_image` call, it is issued on the back page, and
so by `GeneratePdf` when backsides are enabled. -/
theorem back_image_origin (env : Env Rot) (pr : Project) (g : Grid) (p page x y : Nat)
    (card : GridImage) (hcols : columns pr < SIZE_MOD) (hrows : rows pr < SIZE_MOD)
    (hx : x < columns pr) (hy : y < rows pr)
    (hcard : g y x = some card)
    (hfile : env.fsExists (img_path env (backside_card pr card)) = true) :
    image_data env pr (backside_card pr card) (back_bx pr x) (back_by pr y)
        pr.m_Data.m_BacksideOffset 0 true
      = { m_Path := img_path env (backside_card pr card)
          m_Pos :=
            { x := (pr.ComputeMaxMargins.x - pr.ComputeMargins.x)
                + (back_bx pr x : ℚ) * (pr.CardSizeWithBleed.x + pr.m_Data.m_Spacing.x)
                + pr.m_Data.m_BacksideOffset
              y := pr.ComputePageSize.y - pr.ComputeMargins.y
                - ((back_by pr y : ℚ) + 1) * pr.CardSizeWithBleed.y
                - (back_by pr y : ℚ) * pr.m_Data.m_Spacing.y }
          m_Size := { x := pr.CardSizeWithBleed.x, y := pr.CardSizeWithBleed.y }
          m_Rotation := env.GetCardRotation true card.m_BacksideShortEdge }
    ∧ (image_data env pr (backside_card pr card) (back_bx pr x) (back_by pr y)
        pr.m_Data.m_BacksideOffset 0 true).m_Pos.y
      = (image_data env pr card (back_bx pr x) (back_by pr y) 0 0 false).m_Pos.y
    ∧ draw_image env pr page (backside_card pr card) (back_bx pr x) (back_by pr y)
        pr.m_Data.m_BacksideOffset 0 true
      = [Cmd.DrawImage page (image_data env pr (backside_card pr card) (back_bx pr x)
          (back_by pr y) pr.m_Data.m_BacksideOffset 0 true)]
    ∧ Cmd.DrawImage page (image_data env pr (backside_card pr card) (back_bx pr x)
          (back_by pr y) pr.m_Data.m_BacksideOffset 0 true) ∈ back_page env pr g p page
    ∧ (pr.m_Data.m_BacksideEnabled = true → ∀ k : Nat, env.card_grids[k]? = some g →
        ∃ h, Cmd.DrawImage h (image_data env pr (backside_card pr card) (back_bx pr x)
          (back_by pr y) pr.m_Data.m_BacksideOffset 0 true) ∈ GeneratePdf env pr) := by
  have hin := back_slot_inside pr (x, y) hcols hrows hx hy
  have hby : back_by pr y < rows pr := hin.2
  have hu : uadd (back_by pr y) 1 = back_by pr y + 1 := uadd_of_lt (by omega)
  have hdraw : ∀ h, draw_image env pr h (backside_card pr card) (back_bx pr x) (back_by pr y)
        pr.m_Data.m_BacksideOffset 0 true
      = [Cmd.DrawImage h (image_data env pr (backside_card pr card) (back_bx pr x)
          (back_by pr y) pr.m_Data.m_BacksideOffset 0 true)] := by
    intro h
    simp [draw_image, hfile]
  have hmem : ∀ q h, Cmd.DrawImage h (image_data env pr (backside_card pr card) (back_bx pr x)
          (back_by pr y) pr.m_Data.m_BacksideOffset 0 true) ∈ back_page env pr g q h := by
    intro q h
    apply mem_back_page env pr g q h y x hy hx
    simp [back_slot_draws, hcard, hdraw]
  refine ⟨?_, ?_, hdraw page, hmem p page, ?_⟩
  · simp [image_data, hu, backside_start_x, backside_start_y, start_y, page_height, card_width,
      card_height, spacing, backside_card]
  · simp [image_data, backside_start_y]
  · intro hb k hk
    obtain ⟨h, hh⟩ := render_pages_back env pr env.card_grids 0 (0, []) k g hk hb
    refine ⟨h, ?_⟩
    unfold GeneratePdf
    apply List.mem_append_left
    apply hh
    rw [Nat.zero_add]
    exact hmem k h

/-- An instance at the example project: the backside of the
card of cell `(0, 0)` is drawn in slot `(1, 0)`, at `(171/2, 173)`. -/
theorem back_image_origin_witness :
    (columns exProject < SIZE_MOD ∧ rows exProject < SIZE_MOD
      ∧ 0 < columns exProject ∧ 0 < rows exProject ∧ exGrid 0 0 = some exCard
      ∧ exEnv.fsExists (img_path exEnv (backside_card exProject exCard)) = true
      ∧ back_bx exProject 0 = 1 ∧ back_by exProject 0 = 0)
    ∧ (image_data exEnv exProject (backside_card exProject exCard) (back_bx exProject 0)
        (back_by exProject 0) exProject.m_Data.m_BacksideOffset 0 true).m_Pos
      = { x := 171 / 2, y := 173 }
    ∧ Cmd.DrawImage 1 (image_data exEnv exProject (backside_card exProject exCard)
        (back_bx exProject 0) (back_by exProject 0) exProject.m_Data.m_BacksideOffset 0 true)
      ∈ back_page exEnv exProject exGrid 0 1 := by
  have h := back_image_origin exEnv exProject exGrid 0 1 0 0 exCard (by decide) (by decide)
    (by decide) (by decide) rfl rfl
  have hbx : back_bx exProject 0 = 1 := by decide
  have hby : back_by exProject 0 = 0 := by decide
  refine ⟨⟨by decide, by decide, by decide, by decide, rfl, rfl, hbx, hby⟩, ?_, h.2.2.2.1⟩
  rw [h.1, hbx, hby]
  norm_num [exProject, exData]

end BackPage

/-! ## Guides and the image rectangle -/

section Anchors

variable {Rot : Type}

/-- C16: for a slot `(x, y)` of the grid whose front image has origin `(X, Y)`, with
`(w, h)` the size of the card with bleed and `d = bleed - guides_offset`, the four crosses
of `draw_guides` are anchored, in the order top right, bottom right, top left, bottom
left, at `(X + w - d, Y + h - d)`, `(X + w - d, Y + d)`, `(X + d, Y + h - d)` and
`(X + d, Y + d)`: the corners of the image rectangle moved inward by `d`, for every
spacing. -/
theorem cross_anchors_image_corners (env : Env Rot) (pr : Project) (page x y : Nat)
    (card : GridImage) (X Y : ℚ)
    (hcols : columns pr < SIZE_MOD) (hrows : rows pr < SIZE_MOD)
    (hx : x < columns pr) (hy : y < rows pr)
    (hcorner : pr.m_Data.m_CornerGuides = true)
    (hXY : (image_data env pr card x y 0 0 false).m_Pos = { x := X, y := Y }) :
    (crossesOf (draw_guides pr page x y : List (Cmd Rot))).map (fun c => c.m_Pos)
      = [ { x := X + pr.CardSizeWithBleed.x - (pr.m_Data.m_BleedEdge - pr.m_Data.m_GuidesOffset)
            y := Y + pr.CardSizeWithBleed.y
              - (pr.m_Data.m_BleedEdge - pr.m_Data.m_GuidesOffset) },
          { x := X + pr.CardSizeWithBleed.x - (pr.m_Data.m_BleedEdge - pr.m_Data.m_GuidesOffset)
            y := Y + (pr.m_Data.m_BleedEdge - pr.m_Data.m_GuidesOffset) },
          { x := X + (pr.m_Data.m_BleedEdge - pr.m_Data.m_GuidesOffset)
            y := Y + pr.CardSizeWithBleed.y
              - (pr.m_Data.m_BleedEdge - pr.m_Data.m_GuidesOffset) },
          { x := X + (pr.m_Data.m_BleedEdge - pr.m_Data.m_GuidesOffset)
            y := Y + (pr.m_Data.m_BleedEdge - pr.m_Data.m_GuidesOffset) } ]
    ∧ (pr.m_Data.m_CrossGuides = false →
        (crossesOf (draw_guides pr page x y : List (Cmd Rot))).map (fun c => c.m_Segment)
          = [CrossSegment.TopRight, CrossSegment.BottomRight, CrossSegment.TopLeft,
              CrossSegment.BottomLeft]) := by
  have ux : uadd x 1 = x + 1 := uadd_of_lt (by omega)
  have uy : uadd y 1 = y + 1 := uadd_of_lt (by omega)
  have uy0 : uadd y 0 = y := uadd_of_lt (by omega)
  simp only [image_data, uy, Size.mk.injEq, Bool.false_eq_true, if_false] at hXY
  obtain ⟨hX, hY⟩ := hXY
  push_cast at hY
  rw [crossesOf_draw_guides, if_pos hcorner]
  constructor
  · simp only [guide_calls, ux, uy, uy0, List.map_cons, List.map_nil, cross_of_call, cross_pos,
      offset, card_width, card_height]
    simp only [card_width, card_height] at hX hY
    push_cast
    refine congrArg₂ _ ?_ (congrArg₂ _ ?_ (congrArg₂ _ ?_ (congrArg₂ _ ?_ rfl))) <;>
      refine congrArg₂ _ ?_ ?_ <;> linarith
  · intro hcross
    simp [guide_calls, cross_of_call, hcross]

/-- An instance at the example project: the image of cell `(0, 0)` has origin `(5, 173)`
and size `(10, 20)`, `d = 2`, and the anchors are `(13, 191)`, `(13, 175)`, `(7, 191)`
and `(7, 175)`. -/
theorem cross_anchors_image_corners_witness :
    (columns exProject < SIZE_MOD ∧ rows exProject < SIZE_MOD
      ∧ 0 < columns exProject ∧ 0 < rows exProject
      ∧ exProject.m_Data.m_CornerGuides = true
      ∧ (image_data exEnv exProject exCard 0 0 0 0 false).m_Pos = { x := 5, y := 173 })
    ∧ (crossesOf (draw_guides exProject 0 0 0 : List (Cmd Nat))).map (fun c => c.m_Pos)
      = [{ x := 13, y := 191 }, { x := 13, y := 175 }, { x := 7, y := 191 },
          { x := 7, y := 175 }] := by
  have hXY : (image_data exEnv exProject exCard 0 0 0 0 false).m_Pos = { x := 5, y := 173 } := by
    norm_num [image_data, uadd, SIZE_MOD, start_x, start_y, page_height, card_width,
      card_height, spacing, exProject, exData]
  have h := (cross_anchors_image_corners exEnv exProject 0 0 0 exCard 5 173 (by decide)
    (by decide) (by decide) (by decide) rfl hXY).1
  refine ⟨⟨by decide, by decide, by decide, by decide, rfl, hXY⟩, ?_⟩
  rw [h]
  norm_num [exProject, exData]

end Anchors

/-! ## The alignment test document -/

section Alignment

variable {Rot : Type}

/-- C15: the alignment document has, on the front page, the vertical line
`x = page_width / 4` and the vertical line `x = page_width / 4 + 20` (20 mm further), and,
exactly when backsides are enabled, a back page with the vertical line
`x = page_width - page_width / 4 + backside_offset` over the full page height; the back
line and the front left line are mirror images about the centre line `x = page_width / 2`
up to the backside offset. -/
theorem alignment_lines (pr : Project) :
    solidLinesOf (GenerateTestPdf pr : List (Cmd Rot))
      = [ (0, { m_From := { x := pr.ComputePageSize.x / 4, y := 0 }
                m_To := { x := pr.ComputePageSize.x / 4
                          y := pr.ComputePageSize.y - pr.ComputePageSize.y / 8 } }),
          (0, { m_From := { x := pr.ComputePageSize.x / 4 + 20, y := 0 }
                m_To := { x := pr.ComputePageSize.x / 4 + 20
                          y := pr.ComputePageSize.y / 2 } }) ]
        ++ (if pr.m_Data.m_BacksideEnabled then
              [ (1, { m_From :=
                        { x := pr.ComputePageSize.x - pr.ComputePageSize.x / 4
                            + pr.m_Data.m_BacksideOffset
                          y := 0 }
                      m_To :=
                        { x := pr.ComputePageSize.x - pr.ComputePageSize.x / 4
                            + pr.m_Data.m_BacksideOffset
                          y := pr.ComputePageSize.y } }) ]
            else [])
    ∧ nextPagesOf (GenerateTestPdf pr : List (Cmd Rot))
      = 0 :: (if pr.m_Data.m_BacksideEnabled then [1] else [])
    ∧ ((Cmd.NextPage 1 : Cmd Rot) ∈ GenerateTestPdf pr ↔ pr.m_Data.m_BacksideEnabled = true)
    ∧ (pr.ComputePageSize.x - pr.ComputePageSize.x / 4 + pr.m_Data.m_BacksideOffset)
        - pr.ComputePageSize.x / 2
      = (pr.ComputePageSize.x / 2 - pr.ComputePageSize.x / 4) + pr.m_Data.m_BacksideOffset
    ∧ (pr.ComputePageSize.x / 4 + 20) - pr.ComputePageSize.x / 4 = 20 := by
  refine ⟨?_, ?_, ?_, by ring, by ring⟩
  · unfold GenerateTestPdf solidLinesOf
    cases pr.m_Data.m_BacksideEnabled <;> rfl
  · unfold GenerateTestPdf nextPagesOf
    cases pr.m_Data.m_BacksideEnabled <;> rfl
  · unfold GenerateTestPdf
    cases pr.m_Data.m_BacksideEnabled <;> simp

end Alignment

/-! ## Progress messages -/

section Progress

variable {Rot : Type}

/-- C13, as the code has it: the front loop emits one message for each occupied slot,
whether or not the image file exists.  On the page
with index `p` the `k`-th occupied slot in row-major order is reported with page number
`p + 1`, image index `k + 1` and the image of its card, and there is no other message on
the page; the backside loop does the same with its own format.  The number of `DrawImage`
calls of the front page is the number of occupied slots whose file exists: it is at most
the number of messages, and equal to it when every file exists. -/
theorem progress_messages (env : Env Rot) (pr : Project) (g : Grid) (p page : Nat)
    (hocc : (occupied pr g).length < SIZE_MOD) :
    logsOf (front_page env pr g p page)
      = (occupied pr g).enum.map
          (fun kc => Cmd.LogInfo c_RenderFmt_front (p + 1) (kc.1 + 1) kc.2.m_Image)
    ∧ logsOf (back_page env pr g p page)
      = (occupied pr g).enum.map
          (fun kc => Cmd.LogInfo c_RenderFmt_back (p + 1) (kc.1 + 1) kc.2.m_Image)
    ∧ (logsOf (front_page env pr g p page)).length = (occupied pr g).length
    ∧ (imagesOf (front_page env pr g p page)).length
      = ((occupied pr g).filter (fun card => env.fsExists (img_path env card))).length
    ∧ (imagesOf (front_page env pr g p page)).length
      ≤ (logsOf (front_page env pr g p page)).length
    ∧ ((∀ card ∈ occupied pr g, env.fsExists (img_path env card) = true) →
        (imagesOf (front_page env pr g p page)).length
          = (logsOf (front_page env pr g p page)).length) := by
  have hf : logsOf (front_page env pr g p page)
      = (occupied pr g).enum.map
          (fun kc => Cmd.LogInfo c_RenderFmt_front (p + 1) (kc.1 + 1) kc.2.m_Image) := by
    rw [logsOf_front_page, progress_from_enum _ _ _ _ (by omega)]
    rfl
  have hb : logsOf (back_page env pr g p page)
      = (occupied pr g).enum.map
          (fun kc => Cmd.LogInfo c_RenderFmt_back (p + 1) (kc.1 + 1) kc.2.m_Image) := by
    rw [logsOf_back_page, progress_from_enum _ _ _ _ (by omega)]
    rfl
  have hlen : (logsOf (front_page env pr g p page)).length = (occupied pr g).length := by
    rw [hf]
    simp [List.enum]
  have himg : (imagesOf (front_page env pr g p page)).length
      = ((occupied pr g).filter (fun card => env.fsExists (img_path env card))).length := by
    rw [imagesOf_front_page, front_images_count]
    rfl
  refine ⟨hf, hb, hlen, himg, ?_, ?_⟩
  · rw [himg, hlen]
    exact List.length_filter_le _ _
  · intro hall
    rw [himg, hlen, List.filter_eq_self.mpr (fun c hc => hall c hc)]

/-- An instance at the example project, for the partial page with one card: one message,
with page number 1 and image index 1. -/
theorem progress_messages_witness :
    (occupied exProject exGrid).length < SIZE_MOD
    ∧ occupied exProject exGrid = [exCard]
    ∧ logsOf (front_page exEnv exProject exGrid 0 0)
      = [Cmd.LogInfo c_RenderFmt_front 1 1 "a.png"]
    ∧ (imagesOf (front_page exEnv exProject exGrid 0 0)).length = 1 := by
  have ho : occupied exProject exGrid = [exCard] := rfl
  have hlt : (occupied exProject exGrid).length < SIZE_MOD := by rw [ho]; decide
  have h := progress_messages exEnv exProject exGrid 0 0 hlt
  refine ⟨hlt, ho, ?_, ?_⟩
  · rw [h.1, ho]
    rfl
  · rw [h.2.2.2.2.2 (fun card _ => rfl), h.2.2.1, ho]
    rfl

/-- C13 fails as stated: when the file of the one card of the page is missing, the front
page has one progress message and no `DrawImage` call. -/
theorem progress_messages_counterexample :
    exEnvMissing.fsExists (img_path exEnvMissing exCard) = false
    ∧ logsOf (front_page exEnvMissing exProject exGrid 0 0)
      = [Cmd.LogInfo c_RenderFmt_front 1 1 "a.png"]
    ∧ imagesOf (front_page exEnvMissing exProject exGrid 0 0) = []
    ∧ (logsOf (front_page exEnvMissing exProject exGrid 0 0)).length
      ≠ (imagesOf (front_page exEnvMissing exProject exGrid 0 0)).length := by
  have hmiss : exEnvMissing.fsExists (img_path exEnvMissing exCard) = false := by
    simp [exEnvMissing, with_missing, img_path, exCard]
  have ho : occupied exProject exGrid = [exCard] := rfl
  have hl : logsOf (front_page exEnvMissing exProject exGrid 0 0)
      = [Cmd.LogInfo c_RenderFmt_front 1 1 "a.png"] := by
    rw [logsOf_front_page, ho]
    rfl
  have hc : cells exProject = [(0, 0), (0, 1), (1, 0), (1, 1)] := by decide
  have hi : imagesOf (front_page exEnvMissing exProject exGrid 0 0) = [] := by
    rw [imagesOf_front_page, hc]
    simp [exGrid, draw_image, hmiss, imagesOf]
  refine ⟨hmiss, hl, hi, ?_⟩
  rw [hl, hi]
  decide

end Progress

/-! ## Pages of the document -/

section Pages

variable {Rot : Type}

/-- C14: for the `P` pages of the paginator, `GeneratePdf` issues the blocks of
`page_blocks` one after the other and then `Write`, once.  There are `P` blocks without
backsides and `2 * P` with them; the block with number `h` is `NextPage h`, log messages
and draw calls on the page `h`, `Finish h`; page `k` has its front block at `k` without
backsides, and its front block at `2 * k` and its backside block at `2 * k + 1` with them.
So the pages requested, and the pages finished, are `0, 1, ...` in this order, each once,
and no page is requested when there is none. -/
theorem page_requests (env : Env Rot) (pr : Project) :
    GeneratePdf env pr
      = (page_blocks env pr 0 0 env.card_grids).flatten
        ++ [Cmd.Write pr.m_Data.m_FileName, Cmd.ExportRenderOptionsToJson]
    ∧ (page_blocks env pr 0 0 env.card_grids).length
      = (if pr.m_Data.m_BacksideEnabled then 2 * env.card_grids.length
          else env.card_grids.length)
    ∧ (∀ (h : Nat) (b : List (Cmd Rot)),
        (page_blocks env pr 0 0 env.card_grids)[h]? = some b →
        ∃ body, b = [Cmd.NextPage h] ++ body ++ [Cmd.Finish h]
          ∧ ∀ c ∈ body, on_page h c = true)
    ∧ (∀ (k : Nat) (g : Grid), env.card_grids[k]? = some g →
        (pr.m_Data.m_BacksideEnabled = true →
          (page_blocks env pr 0 0 env.card_grids)[2 * k]?
              = some (front_page env pr g k (2 * k))
          ∧ (page_blocks env pr 0 0 env.card_grids)[2 * k + 1]?
              = some (back_page env pr g k (2 * k + 1)))
        ∧ (pr.m_Data.m_BacksideEnabled = false →
          (page_blocks env pr 0 0 env.card_grids)[k]? = some (front_page env pr g k k)))
    ∧ nextPagesOf (GeneratePdf env pr)
      = List.range (if pr.m_Data.m_BacksideEnabled then 2 * env.card_grids.length
          else env.card_grids.length)
    ∧ finishesOf (GeneratePdf env pr)
      = List.range (if pr.m_Data.m_BacksideEnabled then 2 * env.card_grids.length
          else env.card_grids.length)
    ∧ writesOf (GeneratePdf env pr) = [pr.m_Data.m_FileName]
    ∧ (env.card_grids = [] → GeneratePdf env pr
        = [Cmd.Write pr.m_Data.m_FileName, Cmd.ExportRenderOptionsToJson]) := by
  have hgen : GeneratePdf env pr
      = (page_blocks env pr 0 0 env.card_grids).flatten
        ++ [Cmd.Write pr.m_Data.m_FileName, Cmd.ExportRenderOptionsToJson] := by
    unfold GeneratePdf
    rw [render_pages_blocks]
    simp
  have hlen : (page_blocks env pr 0 0 env.card_grids).length
      = (if pr.m_Data.m_BacksideEnabled then 2 * env.card_grids.length
          else env.card_grids.length) := page_blocks_length env pr env.card_grids 0 0
  have hblock : ∀ (h : Nat) (b : List (Cmd Rot)),
      (page_blocks env pr 0 0 env.card_grids)[h]? = some b →
      ∃ body, b = [Cmd.NextPage h] ++ body ++ [Cmd.Finish h]
        ∧ ∀ c ∈ body, on_page h c = true := by
    intro h b hb
    have := page_blocks_get env pr env.card_grids 0 0 h b hb
    rw [Nat.zero_add] at this
    exact this
  have htail1 : nextPagesOf
      [Cmd.Write pr.m_Data.m_FileName, (Cmd.ExportRenderOptionsToJson : Cmd Rot)] = [] := rfl
  have htail2 : finishesOf
      [Cmd.Write pr.m_Data.m_FileName, (Cmd.ExportRenderOptionsToJson : Cmd Rot)] = [] := rfl
  have htail3 : writesOf
      [Cmd.Write pr.m_Data.m_FileName, (Cmd.ExportRenderOptionsToJson : Cmd Rot)]
        = [pr.m_Data.m_FileName] := rfl
  refine ⟨hgen, hlen, hblock, ?_, ?_, ?_, ?_, ?_⟩
  · intro k g hg
    have := page_blocks_at env pr env.card_grids 0 0 k g hg
    simpa using this
  · rw [hgen, nextPagesOf_append, htail1, List.append_nil,
      flatten_handles nextPagesOf rfl nextPagesOf_append _ 0, hlen, List.range_eq_range']
    intro k b hb
    obtain ⟨body, rfl, hbody⟩ := hblock k b hb
    rw [(block_projections k body hbody).1, Nat.zero_add]
  · rw [hgen, finishesOf_append, htail2, List.append_nil,
      flatten_handles finishesOf rfl finishesOf_append _ 0, hlen, List.range_eq_range']
    intro k b hb
    obtain ⟨body, rfl, hbody⟩ := hblock k b hb
    rw [(block_projections k body hbody).2.1, Nat.zero_add]
  · rw [hgen, writesOf_append, htail3, flatten_no_write, List.nil_append]
    intro b hb
    obtain ⟨k, hk⟩ := List.getElem?_of_mem hb
    obtain ⟨body, rfl, hbody⟩ := hblock k b hk
    exact (block_projections k body hbody).2.2
  · intro hnil
    rw [hgen, hnil]
    rfl

/-- An instance at the example project, one page with backsides: the pages 0 and 1 are
requested and finished, in this order, the first block is the front block of the page and
the second its backside block. -/
theorem page_requests_witness :
    exEnv.card_grids[0]? = some exGrid ∧ exProject.m_Data.m_BacksideEnabled = true
    ∧ nextPagesOf (GeneratePdf exEnv exProject) = [0, 1]
    ∧ finishesOf (GeneratePdf exEnv exProject) = [0, 1]
    ∧ writesOf (GeneratePdf exEnv exProject) = ["out.pdf"]
    ∧ (page_blocks exEnv exProject 0 0 exEnv.card_grids)[0]?
        = some (front_page exEnv exProject exGrid 0 0)
    ∧ (page_blocks exEnv exProject 0 0 exEnv.card_grids)[1]?
        = some (back_page exEnv exProject exGrid 0 1) := by
  have h := page_requests exEnv exProject
  have h4 := (h.2.2.2.1 0 exGrid rfl).1 rfl
  refine ⟨rfl, rfl, ?_, ?_, h.2.2.2.2.2.2.1, h4.1, h4.2⟩
  · rw [h.2.2.2.2.1]
    rfl
  · rw [h.2.2.2.2.2.1]
    rfl

end Pages

/-! ## Missing image files -/

section Missing

variable {Rot : Type}

/-- C11, as the code has it: the render has no error path, and without the file `f` it
issues exactly the commands of the render in which `f` exists, less the `DrawImage` calls
of `f`: no image is drawn for a slot whose file is `f` (the slot in question and every
other slot with the same file), and the images of the slots with another file, the
guides of every slot, the page requests, `Finish` and `Write` are the same. -/
theorem missing_file_skipped (env : Env Rot) (pr : Project) (f : String) :
    GeneratePdf (with_missing env f) pr = (GeneratePdf env pr).filter (not_image_of f)
    ∧ (∀ (page : Nat) (card : GridImage) (x y : Nat) (dx dy : ℚ) (b : Bool),
        img_path env card = f →
        draw_image (with_missing env f) pr page card x y dx dy b = [])
    ∧ (∀ (page : Nat) (card : GridImage) (x y : Nat) (dx dy : ℚ) (b : Bool),
        img_path env card ≠ f →
        draw_image (with_missing env f) pr page card x y dx dy b
          = draw_image env pr page card x y dx dy b)
    ∧ crossesOf (GeneratePdf (with_missing env f) pr) = crossesOf (GeneratePdf env pr)
    ∧ linesOf (GeneratePdf (with_missing env f) pr) = linesOf (GeneratePdf env pr)
    ∧ nextPagesOf (GeneratePdf (with_missing env f) pr) = nextPagesOf (GeneratePdf env pr)
    ∧ finishesOf (GeneratePdf (with_missing env f) pr) = finishesOf (GeneratePdf env pr)
    ∧ writesOf (GeneratePdf (with_missing env f) pr) = writesOf (GeneratePdf env pr) := by
  have h := GeneratePdf_missing env pr f
  refine ⟨h, ?_, ?_, ?_, ?_, ?_, ?_, ?_⟩
  · intro page card x y dx dy b hf
    have hp : (image_data env pr card x y dx dy b).m_Path = img_path env card := rfl
    rw [draw_image_missing]
    unfold draw_image
    split
    · simp [not_image_of, hp, hf]
    · rfl
  · intro page card x y dx dy b hf
    have hp : (image_data env pr card x y dx dy b).m_Path = img_path env card := rfl
    rw [draw_image_missing]
    unfold draw_image
    split
    · simp [not_image_of, hp, hf]
    · rfl
  · rw [h]
    exact filterMap_not_image_of _ (fun _ _ => rfl) f _
  · rw [h]
    exact filterMap_not_image_of _ (fun _ _ => rfl) f _
  · rw [h]
    exact filterMap_not_image_of _ (fun _ _ => rfl) f _
  · rw [h]
    exact filterMap_not_image_of _ (fun _ _ => rfl) f _
  · rw [h]
    exact filterMap_not_image_of _ (fun _ _ => rfl) f _

/-- An instance at the example project: without the file of the card of cell `(0, 0)` no
image is drawn for that cell, and the crosses of the render are the same. -/
theorem missing_file_skipped_witness :
    draw_image (with_missing exEnv (img_path exEnv exCard)) exProject 0 exCard 0 0 0 0 false
      = []
    ∧ crossesOf (GeneratePdf (with_missing exEnv (img_path exEnv exCard)) exProject)
      = crossesOf (GeneratePdf exEnv exProject) :=
  ⟨(missing_file_skipped exEnv exProject (img_path exEnv exCard)).2.1 0 exCard 0 0 0 0 false
      rfl,
    (missing_file_skipped exEnv exProject (img_path exEnv exCard)).2.2.2.1⟩

/-- C11 fails as stated: on a page with the same card in the cells `(0, 0)` and `(1, 0)`,
the image of the other cell `(1, 0)` is drawn in the render in which the file exists and
is not drawn in the render in which the file is missing. -/
theorem missing_file_skipped_counterexample :
    (exGridPair 0 0 = some exCard ∧ exGridPair 0 1 = some exCard
      ∧ exEnvPair.card_grids = [exGridPair]
      ∧ exEnvPair.fsExists (img_path exEnvPair exCard) = true)
    ∧ (∃ h, Cmd.DrawImage h (image_data exEnvPair exProject exCard 1 0 0 0 false)
        ∈ GeneratePdf exEnvPair exProject)
    ∧ (∀ h, Cmd.DrawImage h (image_data exEnvPair exProject exCard 1 0 0 0 false)
        ∉ GeneratePdf (with_missing exEnvPair (img_path exEnvPair exCard)) exProject) := by
  refine ⟨⟨rfl, rfl, rfl, rfl⟩, ?_, ?_⟩
  · obtain ⟨h, hh⟩ := render_pages_front exEnvPair exProject exEnvPair.card_grids 0 (0, []) 0
      exGridPair rfl
    refine ⟨h, ?_⟩
    unfold GeneratePdf
    apply List.mem_append_left
    apply hh
    apply mem_front_page exEnvPair exProject exGridPair 0 h 0 1 (by decide) (by decide)
    have hf : exEnvPair.fsExists (img_path exEnvPair exCard) = true := rfl
    simp [front_slot_draws, exGridPair, draw_image, hf]
  · intro h hmem
    rw [GeneratePdf_missing, List.mem_filter] at hmem
    have hk := hmem.2
    have hp : (image_data exEnvPair exProject exCard 1 0 0 0 false).m_Path
        = img_path exEnvPair exCard := rfl
    simp [not_image_of, hp] at hk

end Missing

/-! ## Configuration errors -/

section Configuration

variable {Rot : Type}

/-- C12, as the code has it: `GeneratePdf` makes no check of the card size against the
page size and has no error result.  If the card with bleed exceeds the page, as one card
or as the grid of `columns` by `rows` cards with its spacing, in width or in height, the
render requests its canvas pages as for any geometry (`P` pages, `2 * P` with backsides,
in order), draws the image of every occupied slot whose file exists at the computed
origin, and calls `Write` once. -/
theorem oversized_card_renders (env : Env Rot) (pr : Project)
    (_hbig : page_width pr < card_width pr ∨ page_height pr < card_height pr
      ∨ page_width pr
          < (columns pr : ℚ) * card_width pr + ((columns pr : ℚ) - 1) * (spacing pr).x
      ∨ page_height pr
          < (rows pr : ℚ) * card_height pr + ((rows pr : ℚ) - 1) * (spacing pr).y) :
    nextPagesOf (GeneratePdf env pr)
      = List.range (if pr.m_Data.m_BacksideEnabled then 2 * env.card_grids.length
          else env.card_grids.length)
    ∧ writesOf (GeneratePdf env pr) = [pr.m_Data.m_FileName]
    ∧ (env.card_grids ≠ [] → (Cmd.NextPage 0 : Cmd Rot) ∈ GeneratePdf env pr)
    ∧ (∀ (k : Nat) (g : Grid) (x y : Nat) (card : GridImage),
        env.card_grids[k]? = some g → x < columns pr → y < rows pr → g y x = some card →
        env.fsExists (img_path env card) = true →
        ∃ h, Cmd.DrawImage h (image_data env pr card x y 0 0 false) ∈ GeneratePdf env pr) := by
  have hpages : nextPagesOf (GeneratePdf env pr)
      = List.range (if pr.m_Data.m_BacksideEnabled then 2 * env.card_grids.length
          else env.card_grids.length) := nextPagesOf_GeneratePdf env pr
  refine ⟨hpages, writesOf_GeneratePdf env pr, ?_, ?_⟩
  · intro hne
    have hmem : 0 ∈ nextPagesOf (GeneratePdf env pr) := by
      rw [hpages, List.mem_range]
      have hlen : 0 < env.card_grids.length := List.length_pos.mpr hne
      split <;> omega
    unfold nextPagesOf at hmem
    rw [List.mem_filterMap] at hmem
    obtain ⟨c, hc, hc0⟩ := hmem
    cases c <;> simp at hc0
    subst hc0
    exact hc
  · intro k g x y card hg hx hy hcard hfile
    exact front_image_in_GeneratePdf env pr k g x y card hg hx hy hcard hfile

/-- An instance at the example project with a card of 300 x 300 on the page of 100 x 200:
the pages 0 and 1 are requested and the document is written. -/
theorem oversized_card_renders_witness :
    (page_width exOversized < card_width exOversized)
    ∧ nextPagesOf (GeneratePdf exEnv exOversized) = [0, 1]
    ∧ writesOf (GeneratePdf exEnv exOversized) = ["out.pdf"] := by
  have hbig : page_width exOversized < card_width exOversized := by
    norm_num [page_width, card_width, exOversized, exProject]
  have h := oversized_card_renders exEnv exOversized (Or.inl hbig)
  refine ⟨hbig, ?_, h.2.1⟩
  rw [h.1]
  rfl

/-- C12 fails as stated: with a card of 300 x 300 on the page of 100 x 200, on a 2 x 2
layout, `GeneratePdf` requests the pages 0 and 1 and draws the image of the card of cell
`(0, 0)`; the render has no error result. -/
theorem oversized_card_counterexample :
    (page_width exOversized < card_width exOversized
      ∧ page_height exOversized < card_height exOversized
      ∧ page_width exOversized
          < (columns exOversized : ℚ) * card_width exOversized
            + ((columns exOversized : ℚ) - 1) * (spacing exOversized).x)
    ∧ nextPagesOf (GeneratePdf exEnv exOversized) = [0, 1]
    ∧ (∃ h, Cmd.DrawImage h (image_data exEnv exOversized exCard 0 0 0 0 false)
        ∈ GeneratePdf exEnv exOversized)
    ∧ (image_data exEnv exOversized exCard 0 0 0 0 false).m_Size = { x := 300, y := 300 } := by
  refine ⟨⟨?_, ?_, ?_⟩, ?_, ?_, rfl⟩
  · norm_num [page_width, card_width, exOversized, exProject]
  · norm_num [page_height, card_height, exOversized, exProject]
  · norm_num [page_width, card_width, columns, spacing, exOversized, exProject, exData]
  · rw [nextPagesOf_GeneratePdf]
    rfl
  · exact front_image_in_GeneratePdf exEnv exOversized 0 exGrid 0 0 exCard rfl (by decide)
      (by decide) rfl rfl

end Configuration

end PPP
